import Mathlib

/-!
Verification of the statement-parsing core of the credit_cards_tracker
repository (src/parser.py, src/parser_utils.py).

Strings are modelled as `List Char`.  Python floats are modelled as exact
rationals (`ℚ`); the amounts handled by the parser are decimal currency
tokens, so no rounding behaviour is relevant to the claims.  Python
functions that can raise are modelled with `Option`.  The ambient
"current calendar year" used by date parsing is passed explicitly as a
`year : Nat` parameter.
-/

namespace CardTracker

/-- Python str whitespace / regex `\s` (ASCII range used by the parser). -/
def pyWs (c : Char) : Bool :=
  c = ' ' || c = '\t' || c = '\n' || c = '\r' || c = Char.ofNat 11 || c = Char.ofNat 12

/-- Python `str.strip()`. -/
def pyStrip (l : List Char) : List Char :=
  ((l.dropWhile pyWs).reverse.dropWhile pyWs).reverse

/-- Python `str.lower()` (ASCII, which covers every string the parser sees). -/
def pyLower (l : List Char) : List Char :=
  l.map Char.toLower

theorem length_dropWhile_le' (p : Char → Bool) (l : List Char) :
    (l.dropWhile p).length ≤ l.length := by
  induction l with
  | nil => simp
  | cons c cs ih =>
    by_cases h : p c
    · simpa [List.dropWhile, h] using Nat.le_succ_of_le ih
    · simp [List.dropWhile, h]

/-- Python `str.split()` with no argument: split on runs of whitespace,
dropping empty pieces.  The fuel argument (initially the input length,
which every step strictly decreases) only makes the recursion
structural. -/
def pyWordsFuel : Nat → List Char → List (List Char)
  | 0, _ => []
  | _, [] => []
  | fuel + 1, c :: cs =>
    if pyWs c then
      pyWordsFuel fuel cs
    else
      ((c :: cs).takeWhile (fun x => !pyWs x)) ::
        pyWordsFuel fuel ((c :: cs).dropWhile (fun x => !pyWs x))

/-- Python `str.split()` with no argument. -/
def pyWords (l : List Char) : List (List Char) :=
  pyWordsFuel l.length l

/-- Python `" ".flatten(ws)`. -/
def joinSpace (ws : List (List Char)) : List Char :=
  List.intercalate [' '] ws

/-- Python substring test `needle in hay`. -/
def containsSub (needle : List Char) : List Char → Bool
  | [] => needle.isPrefixOf ([] : List Char)
  | c :: t => needle.isPrefixOf (c :: t) || containsSub needle t

/-- Does the string contain any of the given keywords as a substring
(Python `any(k in s for k in keys)`)? -/
def containsAny (keys : List (List Char)) (s : List Char) : Bool :=
  keys.any (fun k => containsSub k s)

/-- Regex `\w` (word character, ASCII). -/
def isWordChar (c : Char) : Bool :=
  c.isAlphanum || c = '_'

/-- Regex class `[\d,]`. -/
def isDigitOrComma (c : Char) : Bool :=
  c.isDigit || c = ','

/-!  The currency-amount token regex `-?\$[\d,]+\.\d{2}` used by the line
stitcher and the generic row test (src/parser.py lines 105-108).  Because
`[\d,]+` can never consume the following `.`, matching at a given
position is deterministic; `amtAt` returns the length of the match. -/

/-- Length of a match of `\$[\d,]+\.\d{2}` starting at the head. -/
def amtDollarAt : List Char → Option Nat
  | '$' :: rest =>
    let run := rest.takeWhile isDigitOrComma
    let rest2 := rest.drop run.length
    if run.length = 0 then none
    else
      match rest2 with
      | '.' :: d1 :: d2 :: _ =>
        if d1.isDigit && d2.isDigit then some (1 + run.length + 3) else none
      | _ => none
  | _ => none

/-- Length of a match of `-?\$[\d,]+\.\d{2}` starting at the head
(the optional sign is taken when it is present and the rest matches). -/
def amtAt (cs : List Char) : Option Nat :=
  match cs with
  | '-' :: rest =>
    match amtDollarAt rest with
    | some n => some (n + 1)
    | none => amtDollarAt cs
  | _ => amtDollarAt cs

/-- Regex search `re.search(r"-?\$[\d,]+\.\d{2}", s)` as a Boolean. -/
def hasAmountL : List Char → Bool
  | [] => false
  | c :: cs => (amtAt (c :: cs)).isSome || hasAmountL cs

/-- Number of matches found by `re.findall(r"-?\$[\d,]+\.\d{2}", s)`
(left to right, non-overlapping; fuel as in `pyWordsFuel`). -/
def countAmountsFuel : Nat → List Char → Nat
  | 0, _ => 0
  | _, [] => 0
  | fuel + 1, c :: cs =>
    match amtAt (c :: cs) with
    | some n => 1 + countAmountsFuel fuel (cs.drop (n - 1))
    | none => countAmountsFuel fuel cs

/-- Number of matches found by `re.findall(r"-?\$[\d,]+\.\d{2}", s)`. -/
def countAmounts (l : List Char) : Nat :=
  countAmountsFuel l.length l

/-!  Value normalisation (src/parser_utils.py lines 12-13 and 53-56). -/

/-- Digit value of an ASCII digit character. -/
def digitVal (c : Char) : Nat := c.toNat - 48

/-- Numeric value of a list of ASCII digit characters, base 10. -/
def charsToNat (l : List Char) : Nat :=
  l.foldl (fun a c => 10 * a + digitVal c) 0

/-- What may follow the integer part in the Python `float()` grammar:
nothing, or a point followed by the fractional digits and nothing
else; at least one digit overall. -/
def pyFloatRest (intPart : List Char) : List Char → Option ℚ
  | [] =>
    if intPart.length = 0 then none
    else some ((charsToNat intPart : ℚ))
  | '.' :: r2 =>
    if r2.drop (r2.takeWhile Char.isDigit).length = [] &&
        (intPart.length ≠ 0 || (r2.takeWhile Char.isDigit).length ≠ 0) then
      some ((charsToNat intPart : ℚ) +
        (charsToNat (r2.takeWhile Char.isDigit) : ℚ) /
          ((10 : ℚ) ^ (r2.takeWhile Char.isDigit).length))
    else none
  | _ => none

/-- Unsigned part of the Python `float()` grammar: the integer part is
`body.takeWhile isDigit`, the remainder is handled by `pyFloatRest`. -/
def pyFloatBody (body : List Char) : Option ℚ :=
  pyFloatRest (body.takeWhile Char.isDigit)
    (body.drop (body.takeWhile Char.isDigit).length)

/-- Model of Python `float()` restricted to plain decimal literals with
an optional sign.  Scientific notation, `inf`/`nan` and underscores are
accepted by Python but can never reach this parser from a statement
token, so they are left out of the model.  Returns the exact rational
value. -/
def pyFloat (cs : List Char) : Option ℚ :=
  match cs with
  | '-' :: r => (pyFloatBody r).map (fun q => -q)
  | '+' :: r => pyFloatBody r
  | _ => pyFloatBody cs

/-- src/parser_utils.py lines 12-13:
`float(raw.replace("$", "").replace(",", "").strip())`.
A `ValueError` from `float` is modelled as `none`. -/
def normalize_amount (raw : List Char) : Option ℚ :=
  pyFloat (pyStrip ((raw.filter (fun c => c ≠ '$')).filter (fun c => c ≠ ',')))

/-!  Date parsing (src/parser_utils.py lines 16-43).  `datetime.strptime`
is modelled faithfully for the three formats the source uses:
`%m/%d/%y`, `%m/%d/%Y` and `%b %d %Y`.  strptime first matches the
format's regex against the whole token (with the regex's alternation
order) and then validates the calendar date, raising (here: `none`)
when the day is out of range for the month. -/

/-- A calendar date (year, month, day). -/
structure PDate where
  year : Nat
  month : Nat
  day : Nat
deriving DecidableEq, Repr

/-- First candidate for which the continuation succeeds (models regex
alternation with backtracking). -/
def firstSome {α β : Type} (l : List α) (f : α → Option β) : Option β :=
  match l with
  | [] => none
  | a :: rest =>
    match f a with
    | some b => some b
    | none => firstSome rest f

/-- Candidates for strptime `%m`: regex `1[0-2]|0[1-9]|[1-9]`, in
alternation order, as (value, rest) pairs. -/
def monthNumCands (cs : List Char) : List (Nat × List Char) :=
  (match cs with
    | '1' :: c :: r => if '0' ≤ c && c ≤ '2' then [(10 + digitVal c, r)] else []
    | _ => []) ++
  (match cs with
    | '0' :: c :: r => if '1' ≤ c && c ≤ '9' then [(digitVal c, r)] else []
    | _ => []) ++
  (match cs with
    | c :: r => if '1' ≤ c && c ≤ '9' then [(digitVal c, r)] else []
    | [] => [])

/-- Candidates for strptime `%d`: regex `3[01]|[12]\d|0[1-9]|[1-9]`. -/
def dayNumCands (cs : List Char) : List (Nat × List Char) :=
  (match cs with
    | '3' :: c :: r => if c = '0' || c = '1' then [(30 + digitVal c, r)] else []
    | _ => []) ++
  (match cs with
    | a :: c :: r =>
      if (a = '1' || a = '2') && c.isDigit then [(10 * digitVal a + digitVal c, r)] else []
    | _ => []) ++
  (match cs with
    | '0' :: c :: r => if '1' ≤ c && c ≤ '9' then [(digitVal c, r)] else []
    | _ => []) ++
  (match cs with
    | c :: r => if '1' ≤ c && c ≤ '9' then [(digitVal c, r)] else []
    | [] => [])

/-- strptime `%y`: exactly two digits. -/
def year2Cands (cs : List Char) : List (Nat × List Char) :=
  match cs with
  | a :: b :: r => if a.isDigit && b.isDigit then [(10 * digitVal a + digitVal b, r)] else []
  | _ => []

/-- strptime `%Y`: exactly four digits. -/
def year4Cands (cs : List Char) : List (Nat × List Char) :=
  match cs with
  | a :: b :: c :: d :: r =>
    if a.isDigit && b.isDigit && c.isDigit && d.isDigit then
      [(charsToNat [a, b, c, d], r)]
    else []
  | _ => []

/-- strptime `%b`: the C-locale month abbreviations, case-insensitive. -/
def monthAbbrs : List (List Char × Nat) :=
  [(['j','a','n'], 1), (['f','e','b'], 2), (['m','a','r'], 3), (['a','p','r'], 4),
   (['m','a','y'], 5), (['j','u','n'], 6), (['j','u','l'], 7), (['a','u','g'], 8),
   (['s','e','p'], 9), (['o','c','t'], 10), (['n','o','v'], 11), (['d','e','c'], 12)]

/-- Candidates for strptime `%b` on the input. -/
def monthNameCands (cs : List Char) : List (Nat × List Char) :=
  monthAbbrs.filterMap fun nm =>
    if nm.1.isPrefixOf (pyLower cs) then some (nm.2, cs.drop 3) else none

/-- Whitespace in a strptime format string matches `\s+`. -/
def wsPlus (cs : List Char) : Option (List Char) :=
  match cs with
  | c :: r => if pyWs c then some (r.dropWhile pyWs) else none
  | [] => none

/-- Gregorian leap year. -/
def isLeap (y : Nat) : Bool :=
  (y % 4 = 0 && y % 100 ≠ 0) || y % 400 = 0

/-- Days in a month (1-12). -/
def daysInMonth (y m : Nat) : Nat :=
  if m = 2 then (if isLeap y then 29 else 28)
  else if m = 4 || m = 6 || m = 9 || m = 11 then 30
  else 31

/-- Calendar validation done by the `datetime` constructor. -/
def validDate (y m d : Nat) : Bool :=
  1 ≤ m && m ≤ 12 && 1 ≤ d && d ≤ daysInMonth y m

/-- `datetime.strptime(token, "%m/%d/%y")`: regex phase (fullmatch over
the alternation candidates) followed by calendar validation.  A `%y`
value 0-68 means 2000-2068, 69-99 means 1969-1999. -/
def strptime_mdy2 (tok : List Char) : Option PDate :=
  match firstSome (monthNumCands tok) (fun mc =>
    match mc.2 with
    | '/' :: r1 =>
      firstSome (dayNumCands r1) (fun dc =>
        match dc.2 with
        | '/' :: r2 =>
          firstSome (year2Cands r2) (fun yc =>
            if yc.2 = [] then some (mc.1, dc.1, yc.1) else none)
        | _ => none)
    | _ => none) with
  | none => none
  | some (m, d, yy) =>
    let y := if yy ≤ 68 then 2000 + yy else 1900 + yy
    if validDate y m d then some ⟨y, m, d⟩ else none

/-- `datetime.strptime(s, "%m/%d/%Y")` applied to the whole list `s`. -/
def strptime_mdY (s : List Char) : Option PDate :=
  match firstSome (monthNumCands s) (fun mc =>
    match mc.2 with
    | '/' :: r1 =>
      firstSome (dayNumCands r1) (fun dc =>
        match dc.2 with
        | '/' :: r2 =>
          firstSome (year4Cands r2) (fun yc =>
            if yc.2 = [] then some (mc.1, dc.1, yc.1) else none)
        | _ => none)
    | _ => none) with
  | none => none
  | some (m, d, y) => if validDate y m d then some ⟨y, m, d⟩ else none

/-- `datetime.strptime(s, "%b %d %Y")` applied to the whole list `s`. -/
def strptime_bdY (s : List Char) : Option PDate :=
  match firstSome (monthNameCands s) (fun mc =>
    match wsPlus mc.2 with
    | none => none
    | some r1 =>
      firstSome (dayNumCands r1) (fun dc =>
        match wsPlus dc.2 with
        | none => none
        | some r2 =>
          firstSome (year4Cands r2) (fun yc =>
            if yc.2 = [] then some (mc.1, dc.1, yc.1) else none))) with
  | none => none
  | some (m, d, y) => if validDate y m d then some ⟨y, m, d⟩ else none

/-- Decimal rendering of the ambient year, as produced by an f-string. -/
def yearChars (year : Nat) : List Char :=
  Nat.toDigits 10 year

/-- src/parser_utils.py lines 16-43 (`parse_date`): strip the token, then
try `%m/%d/%y` on the token, `%m/%d/%Y` on `f"{token}/{year}"`, and
`%b %d %Y` on `f"{token} {year}"`, in that order; `None` if all fail. -/
def parse_date (year : Nat) (token : List Char) : Option PDate :=
  match strptime_mdy2 (pyStrip token) with
  | some d => some d
  | none =>
    match strptime_mdY (pyStrip token ++ '/' :: yearChars year) with
    | some d => some d
    | none => strptime_bdY (pyStrip token ++ ' ' :: yearChars year)

/-!  Line stitcher (src/parser.py lines 94-136). -/

/-- Exactly `n` digits at the head; returns the rest. -/
def takeDigitsN (n : Nat) (cs : List Char) : Option (List Char) :=
  if (cs.take n).length = n && (cs.take n).all Char.isDigit then some (cs.drop n) else none

/-- Regex `\b` after a word character: the next character must be a
non-word character or the end of the string. -/
def boundaryAfter (cs : List Char) : Bool :=
  match cs with
  | [] => true
  | c :: _ => !isWordChar c

/-- First alternative of the stitcher's start-of-transaction pattern:
`\d{1,2}/\d{1,2}(?:/\d{2,4})?` followed by `\b` (all backtracking
choices of the bounded repetitions are tried). -/
def swdAlt1 (cs : List Char) : Bool :=
  [2, 1].any fun n1 =>
    match takeDigitsN n1 cs with
    | none => false
    | some r =>
      match r with
      | '/' :: r1 =>
        [2, 1].any fun n2 =>
          match takeDigitsN n2 r1 with
          | none => false
          | some r2 =>
            (match r2 with
             | '/' :: r3 =>
               [4, 3, 2].any fun n3 =>
                 match takeDigitsN n3 r3 with
                 | none => false
                 | some r4 => boundaryAfter r4
             | _ => false) || boundaryAfter r2
      | _ => false

/-- Second alternative: `[A-Za-z]{3}\s+\d{1,2}` followed by `\b`. -/
def swdAlt2 (cs : List Char) : Bool :=
  match cs with
  | a :: b :: c :: r =>
    a.isAlpha && b.isAlpha && c.isAlpha &&
      (match wsPlus r with
       | none => false
       | some r1 =>
         [2, 1].any fun n =>
           match takeDigitsN n r1 with
           | none => false
           | some r2 => boundaryAfter r2)
  | _ => false

/-- src/parser.py line 105: the anchored start-of-transaction pattern
`^(?:\d{1,2}/\d{1,2}(?:/\d{2,4})?|[A-Za-z]{3}\s+\d{1,2})\b`. -/
def startsWithDate (cs : List Char) : Bool :=
  swdAlt1 cs || swdAlt2 cs

/-- State of the stitcher loop: lines emitted so far and the current
buffer. -/
structure StitchState where
  stitched : List (List Char)
  buffer : List Char

/-- One iteration of the stitcher's `for line in lines` loop
(src/parser.py lines 110-131). -/
def stitchStep (st : StitchState) (rawLine : List Char) : StitchState :=
  let line := pyStrip rawLine
  if line = [] then st
  else
    let afterStart : StitchState :=
      if startsWithDate line then
        { stitched :=
            if st.buffer ≠ [] && hasAmountL st.buffer then
              st.stitched ++ [pyStrip st.buffer]
            else st.stitched,
          buffer := line }
      else
        { stitched := st.stitched, buffer := st.buffer ++ ' ' :: line }
    if hasAmountL afterStart.buffer && hasAmountL line then
      { stitched := afterStart.stitched ++ [pyStrip afterStart.buffer], buffer := [] }
    else afterStart

/-- src/parser.py lines 94-136 (`stitch_wrapped_lines`). -/
def stitch_wrapped_lines (lines : List (List Char)) : List (List Char) :=
  let st := lines.foldl stitchStep ⟨[], []⟩
  if st.buffer ≠ [] && hasAmountL st.buffer then st.stitched ++ [pyStrip st.buffer]
  else st.stitched

/-!  Generic row test (src/parser_utils.py lines 47-50). -/

/-- Search for `\$[\d,]+\.\d{2}` with no newline before it (the `.*` in
the pattern below cannot cross a newline). -/
def hasDollarAmtSameLine : List Char → Bool
  | [] => false
  | c :: cs =>
    if c = '\n' then false
    else (amtDollarAt (c :: cs)).isSome || hasDollarAmtSameLine cs

/-- Match of `\d{1,2}/\d{1,2}.*\$[\d,]+\.\d{2}` starting at the head. -/
def itrAt (cs : List Char) : Bool :=
  [2, 1].any fun n1 =>
    match takeDigitsN n1 cs with
    | none => false
    | some r =>
      match r with
      | '/' :: r1 =>
        [2, 1].any fun n2 =>
          match takeDigitsN n2 r1 with
          | none => false
          | some r2 => hasDollarAmtSameLine r2
      | _ => false

/-- src/parser_utils.py lines 47-50 (`is_transaction_row`):
`re.search(r"\d{1,2}/\d{1,2}.*\$[\d,]+\.\d{2}", line)`. -/
def is_transaction_row : List Char → Bool
  | [] => false
  | c :: cs => itrAt (c :: cs) || is_transaction_row cs

/-!  Issuer row grammars (src/parser.py lines 25-75).  Each regex is
rendered as a parser.  Bounded repetitions whose regex follower cannot
overlap the repeated class are deterministic; the one genuinely
ambiguous spot — the greedy `\s+` in front of the lazy `(.+?)`
description — is handled by `descSepSplit`, which tries separator
widths longest-first and then description lengths shortest-first,
exactly the backtracking order of the regex engine. -/

/-- Token match of `\$[\d,]+\.\d{2}` at the head: returns the token and
the rest. -/
def dollarTokAt (cs : List Char) : Option (List Char × List Char) :=
  match cs with
  | '$' :: rest =>
    let run := rest.takeWhile isDigitOrComma
    let r2 := rest.drop run.length
    if run.length = 0 then none
    else
      match r2 with
      | '.' :: d1 :: d2 :: r3 =>
        if d1.isDigit && d2.isDigit then some ('$' :: (run ++ ['.', d1, d2]), r3)
        else none
      | _ => none
  | _ => none

/-- Token match of `-?\$[\d,]+\.\d{2}` at the head. -/
def signedDollarTokAt (cs : List Char) : Option (List Char × List Char) :=
  match cs with
  | '-' :: r =>
    (match dollarTokAt r with
     | some (t, rest) => some ('-' :: t, rest)
     | none => none)
  | _ => dollarTokAt cs

/-- Match of `-?\$[\d,]+\.\d{2}$` (amount reaching the end of the line). -/
def amountToEnd (cs : List Char) : Option (List Char) :=
  match signedDollarTokAt cs with
  | some (t, []) => some t
  | _ => none

/-- Lazy description: try split points left to right; at each, the split
character must begin a whitespace run (`\s+`, maximal because every
tail in the row grammars starts with a non-whitespace character) and
the tail parser must accept the remainder.  The description may not
absorb a newline (regex `.`). -/
def lazyDescAux {α : Type} (tail : List Char → Option α) (acc : List Char) :
    List Char → Option (List Char × α)
  | [] => none
  | c :: rest =>
    match (if acc = [] then none
           else if pyWs c then tail ((c :: rest).dropWhile pyWs) else none) with
    | some a => some (acc, a)
    | none =>
      if c = '\n' then none else lazyDescAux tail (acc ++ [c]) rest

/-- Greedy separator then lazy description: `\s+(.+?)` followed by the
tail, trying longer separators first. -/
def descSepSplit {α : Type} (tail : List Char → Option α) (cs : List Char) :
    Option (List Char × α) :=
  let run := (cs.takeWhile pyWs).length
  firstSome ((List.range run).map (fun i => run - i))
    (fun w => lazyDescAux tail [] (cs.drop w))

/-- Group `[A-Za-z]{3}\s+\d{1,2}` ("Mon dd"), whose follower in both row
grammars is `\s+`: the digit run must have length 1 or 2.  Returns the
captured token (including the internal whitespace) and the rest. -/
def parseMonDDTok (cs : List Char) : Option (List Char × List Char) :=
  match cs with
  | a :: b :: c :: r =>
    if a.isAlpha && b.isAlpha && c.isAlpha then
      let ws := r.takeWhile pyWs
      let r1 := r.dropWhile pyWs
      let run := r1.takeWhile Char.isDigit
      if ws.length = 0 || run.length = 0 || run.length > 2 then none
      else some (([a, b, c] ++ ws) ++ run, r1.drop run.length)
    else none
  | _ => none

/-- CAPONE_ROW_REGEX (src/parser.py lines 46-54):
`^(Mon dd)\s+(Mon dd)\s+(.+?)\s+(-?\$[\d,]+\.\d{2})$`.
Returns (trans_date, desc, amount). -/
def matchCapOne (line : List Char) : Option (List Char × List Char × List Char) :=
  match parseMonDDTok line with
  | none => none
  | some (dtok, r) =>
    match wsPlus r with
    | none => none
    | some r1 =>
      match parseMonDDTok r1 with
      | none => none
      | some (_, r2) =>
        match descSepSplit amountToEnd r2 with
        | none => none
        | some (desc, amt) => some (dtok, desc, amt)

/-- Tail of the Barclays row after the description:
`(N/A|-?\d+)\s+(-?\$[\d,]+\.\d{2})$` (the points group is captured but
not used by the caller). -/
def barclaysTail (cs : List Char) : Option (List Char) :=
  match (if ['N', '/', 'A'].isPrefixOf cs then
           match wsPlus (cs.drop 3) with
           | none => none
           | some r => amountToEnd r
         else none) with
  | some a => some a
  | none =>
    let (body, _neg) : List Char × Bool :=
      match cs with
      | '-' :: r => (r, true)
      | _ => (cs, false)
    let run := body.takeWhile Char.isDigit
    if run.length = 0 then none
    else
      match wsPlus (body.drop run.length) with
      | none => none
      | some r => amountToEnd r

/-- BARCLAYS_ROW_REGEX (src/parser.py lines 56-65):
`^(Mon dd)\s+(Mon dd)\s+(.+?)\s+(N/A|-?\d+)\s+(-?\$[\d,]+\.\d{2})$`. -/
def matchBarclays (line : List Char) : Option (List Char × List Char × List Char) :=
  match parseMonDDTok line with
  | none => none
  | some (dtok, r) =>
    match wsPlus r with
    | none => none
    | some r1 =>
      match parseMonDDTok r1 with
      | none => none
      | some (_, r2) =>
        match descSepSplit barclaysTail r2 with
        | none => none
        | some (desc, amt) => some (dtok, desc, amt)

/-- Group `\d{1,2}/\d{1,2}` whose follower is `\s+`: both digit runs
must have length 1 or 2.  Returns the captured token and the rest. -/
def parseSlashDateTok (cs : List Char) : Option (List Char × List Char) :=
  let run1 := cs.takeWhile Char.isDigit
  if run1.length = 0 || run1.length > 2 then none
  else
    match cs.drop run1.length with
    | '/' :: r =>
      let run2 := r.takeWhile Char.isDigit
      if run2.length = 0 || run2.length > 2 then none
      else some ((run1 ++ '/' :: run2), r.drop run2.length)
    | _ => none

/-- Amount of the Bank of America row: `-?\d[\d,]*\.\d{2}$`. -/
def boaAmtToEnd (cs : List Char) : Option (List Char) :=
  let (sgn, body) : List Char × List Char :=
    match cs with
    | '-' :: r => (['-'], r)
    | _ => ([], cs)
  match body with
  | c :: r =>
    if c.isDigit then
      let run := r.takeWhile isDigitOrComma
      match r.drop run.length with
      | '.' :: d1 :: d2 :: rest =>
        if d1.isDigit && d2.isDigit && rest = [] then
          some (sgn ++ c :: (run ++ ['.', d1, d2]))
        else none
      | _ => none
    else none
  | [] => none

/-- Tail of the Bank of America row after the description:
`(\d{3,4})\s+(\d{4})\s+(-?\d[\d,]*\.\d{2})$`. -/
def boaTail (cs : List Char) : Option (List Char) :=
  let ref := cs.takeWhile Char.isDigit
  if ref.length < 3 || ref.length > 4 then none
  else
    match wsPlus (cs.drop ref.length) with
    | none => none
    | some r1 =>
      let acct := r1.takeWhile Char.isDigit
      if acct.length ≠ 4 then none
      else
        match wsPlus (r1.drop acct.length) with
        | none => none
        | some r2 => boaAmtToEnd r2

/-- BOA_ROW_REGEX (src/parser.py lines 34-44):
`^(\d{1,2}/\d{1,2})\s+(\d{1,2}/\d{1,2})\s+(.+?)\s+(\d{3,4})\s+(\d{4})\s+(-?\d[\d,]*\.\d{2})$`. -/
def matchBoa (line : List Char) : Option (List Char × List Char × List Char) :=
  match parseSlashDateTok line with
  | none => none
  | some (dtok, r) =>
    match wsPlus r with
    | none => none
    | some r1 =>
      match parseSlashDateTok r1 with
      | none => none
      | some (_, r2) =>
        match descSepSplit boaTail r2 with
        | none => none
        | some (desc, amt) => some (dtok, desc, amt)

/-- Date of CITI_ROW_REGEX at the head: `(\d{1,2}/\d{1,2})` whose
follower is the lazy `.*?`, so the second digit run is simply capped at
two digits.  Returns the captured token and the rest. -/
def citiDateAt (cs : List Char) : Option (List Char × List Char) :=
  let run1 := cs.takeWhile Char.isDigit
  if run1.length = 0 || run1.length > 2 then none
  else
    match cs.drop run1.length with
    | '/' :: r =>
      let run2 := r.takeWhile Char.isDigit
      let k := min 2 run2.length
      if k = 0 then none
      else some ((run1 ++ '/' :: run2.take k), r.drop k)
    | _ => none

/-- First `-?\$[\d,]+\.\d{2}` on the same line (the `.*?` between the
date and the amount cannot cross a newline). -/
def findSignedAmt : List Char → Option (List Char)
  | [] => none
  | c :: cs =>
    if c = '\n' then none
    else
      match signedDollarTokAt (c :: cs) with
      | some (t, _) => some t
      | none => findSignedAmt cs

/-- CITI_ROW_REGEX (src/parser.py lines 25-32), used with `re.search`:
`(\d{1,2}/\d{1,2}).*?(-?\$[\d,]+\.\d{2})`.  Returns (trans_date,
amount). -/
def matchCiti : List Char → Option (List Char × List Char)
  | [] => none
  | c :: cs =>
    match (match citiDateAt (c :: cs) with
           | none => none
           | some (dtok, rest) =>
             match findSignedAmt rest with
             | none => none
             | some amt => some (dtok, amt)) with
    | some r => some r
    | none => matchCiti cs

/-- Citi merchant step 1 (src/parser.py line 229):
`re.sub(r"^\d{1,2}/\d{1,2}", "", merchant)` — the anchored leading date,
if any, is removed. -/
def citiSub1 (line : List Char) : List Char :=
  let run1 := line.takeWhile Char.isDigit
  if run1.length = 0 || run1.length > 2 then line
  else
    match line.drop run1.length with
    | '/' :: r =>
      let run2 := r.takeWhile Char.isDigit
      let k := min 2 run2.length
      if k = 0 then line else r.drop k
    | _ => line

/-- Citi merchant step 2 (src/parser.py line 230):
`re.sub(r"-?\$[\d,]+\.\d{2}.*$", "", merchant)` — everything from the
first amount token onward is removed (the lines fed to it contain no
newline). -/
def citiSub2 : List Char → List Char
  | [] => []
  | c :: cs =>
    if (signedDollarTokAt (c :: cs)).isSome then []
    else c :: citiSub2 cs

/-- The mangled trailing symbol removed from Amex rows
(src/parser.py line 237: `line.replace("‚ß´", "")`). -/
def amexJunk : List Char := [Char.ofNat 8218, Char.ofNat 223, Char.ofNat 180]

/-- Python `line.replace("‚ß´", "")` (fuel as in `pyWordsFuel`). -/
def stripAmexJunkFuel : Nat → List Char → List Char
  | 0, l => l
  | _, [] => []
  | fuel + 1, c1 :: rest =>
    match rest with
    | c2 :: c3 :: cs =>
      if [c1, c2, c3] = amexJunk then stripAmexJunkFuel fuel cs
      else c1 :: stripAmexJunkFuel fuel (c2 :: c3 :: cs)
    | _ => c1 :: rest

/-- Python `line.replace("‚ß´", "")`. -/
def stripAmexJunk (l : List Char) : List Char :=
  stripAmexJunkFuel l.length l

/-- Amex date group `\d{1,2}/\d{1,2}/\d{2}`, follower `\*?\s+`: the
third run must be exactly two digits. -/
def amexDateTok (cs : List Char) : Option (List Char × List Char) :=
  let run1 := cs.takeWhile Char.isDigit
  if run1.length = 0 || run1.length > 2 then none
  else
    match cs.drop run1.length with
    | '/' :: r =>
      let run2 := r.takeWhile Char.isDigit
      if run2.length = 0 || run2.length > 2 then none
      else
        match r.drop run2.length with
        | '/' :: r2 =>
          let run3 := r2.takeWhile Char.isDigit
          if run3.length ≠ 2 then none
          else some ((run1 ++ '/' :: run2 ++ '/' :: run3), r2.drop 2)
        | _ => none
    | _ => none

/-- Tail of the Amex row after the description:
`(-?\$[\d,]+\.\d{2})(?:\S*)?$` — an amount token followed only by
non-whitespace characters. -/
def amexTail (cs : List Char) : Option (List Char) :=
  match signedDollarTokAt cs with
  | some (t, rest) => if rest.all (fun c => !pyWs c) then some t else none
  | none => none

/-- AMEX_ROW_REGEX (src/parser.py lines 67-75):
`^(\d{1,2}/\d{1,2}/\d{2})\*?\s+(.+?)\s+(-?\$[\d,]+\.\d{2})(?:\S*)?$`,
applied to the junk-stripped, re-stripped line.  Returns (trans_date,
desc, amount). -/
def matchAmex (line : List Char) : Option (List Char × List Char × List Char) :=
  match amexDateTok line with
  | none => none
  | some (dtok, r) =>
    let r1 := match r with
      | '*' :: rr => rr
      | _ => r
    match descSepSplit amexTail r1 with
    | none => none
    | some (desc, amt) => some (dtok, desc, amt)

/-!  Bank detection (src/parser_utils.py lines 62-105). -/

/-- The issuer tags of the fixed enumeration. -/
inductive Bank
  | capital_one | barclays | bank_of_america | citi | amex | discover | apple | generic
deriving DecidableEq, Repr

/-- Does one of the month abbreviations of the detection regexes start
here?  (The alternation also lists `sept`, but every `sept` match is
already a `sep` match, so prefix existence is unchanged.) -/
def monthPrefixAt (cs : List Char) : Bool :=
  monthAbbrs.any (fun nm => nm.1.isPrefixOf cs)

/-- Class `[a-z]` of the detection regexes. -/
def isLowerAlpha (c : Char) : Bool :=
  'a' ≤ c && c ≤ 'z'

/-- Regex `\d{4}` matches at the head (at least four digits follow). -/
def digits4At (cs : List Char) : Bool :=
  4 ≤ (cs.takeWhile Char.isDigit).length

/-- Search for a predicate without crossing a newline (regex `.`). -/
def scanNoNl (p : List Char → Bool) : List Char → Bool
  | [] => false
  | c :: cs => if c = '\n' then false else p (c :: cs) || scanNoNl p cs

/-- The Amex filename pattern `month.*month.*\d{4}`
(src/parser_utils.py lines 71-82). -/
def amexDatePat (name : List Char) : Bool :=
  scanNoNl
    (fun r1 => monthPrefixAt r1 &&
      scanNoNl
        (fun r2 => monthPrefixAt r2 && scanNoNl digits4At (r2.drop 3))
        (r1.drop 3))
    name

/-- Match of `month[a-z]*\d{4}` at the head (Citi filename pattern,
src/parser_utils.py line 98). -/
def citiPatAt (cs : List Char) : Bool :=
  monthPrefixAt cs &&
    digits4At ((cs.drop 3).dropWhile isLowerAlpha)

/-- Search of the Citi filename pattern. -/
def citiPat : List Char → Bool
  | [] => false
  | c :: cs => citiPatAt (c :: cs) || citiPat cs

/-- Match of `month[a-z]*\s+\d{4}` at the head (Discover filename
pattern, src/parser_utils.py line 102). -/
def discoverPatAt (cs : List Char) : Bool :=
  monthPrefixAt cs &&
    (let r := (cs.drop 3).dropWhile isLowerAlpha
     match wsPlus r with
     | none => false
     | some r2 => digits4At r2)

/-- Search of the Discover filename pattern. -/
def discoverPat : List Char → Bool
  | [] => false
  | c :: cs => discoverPatAt (c :: cs) || discoverPat cs

/-- src/parser_utils.py lines 62-105 (`detect_bank_type_from_filename`). -/
def detect_bank_type_from_filename (card_name : List Char) : Bank :=
  let name := pyLower card_name
  if containsSub "apple card".toList name || containsSub "applecard".toList name ||
      containsSub "apple_card".toList name then .apple
  else if containsSub "amex".toList name || containsSub "americanexpress".toList name ||
      containsSub "american_express".toList name || amexDatePat name then .amex
  else if containsSub "venture".toList name || containsSub "capitalone".toList name ||
      containsSub "capital_one".toList name then .capital_one
  else if containsSub "barclays".toList name ||
      containsSub "creditcardstatement".toList name then .barclays
  else if containsSub "estmt".toList name || containsSub "bankofamerica".toList name ||
      containsSub "boa".toList name then .bank_of_america
  else if citiPat name then .citi
  else if discoverPat name then .discover
  else .generic

/-!  Noise filtering and classification (src/parser.py lines 79-92 and
250-315), shared by every issuer branch. -/

/-- Transaction kind. -/
inductive TxKind
  | spend | credit
deriving DecidableEq, Repr

/-- A Transaction Record as appended to `rows`
(src/parser.py lines 308-315). -/
structure Record where
  date : Option PDate
  card : List Char
  merchant : List Char
  amount : ℚ
  transaction_type : TxKind
  bank_type : Bank
deriving DecidableEq, Repr

/-- src/parser.py lines 79-86 (`CREDIT_KEYWORDS`). -/
def CREDIT_KEYWORDS : List (List Char) :=
  ["payment", "credit", "refund", "return", "credit adjustment",
   "thank you"].map String.toList

/-- src/parser.py lines 264-285 (`STATEMENT_NOISE_KEYWORDS`). -/
def STATEMENT_NOISE_KEYWORDS : List (List Char) :=
  ["minimum payment", "payment due", "new balance", "statement balance",
   "account summary", "billing period", "credit limit", "available credit",
   "total fees", "interest charged", "eligible purchases", "eligible payments",
   "online payment", "mobile payment", "mobile pymt", "payment received",
   "internet payment", "credit adjustment", "points for statement credit",
   "ach deposit"].map String.toList

/-- src/parser.py lines 287-315: the shared noise filter and
classification applied to every candidate (date, merchant, amount), and
the construction of the appended row. -/
def filterClassify (card : List Char) (bank : Bank) (date : Option PDate)
    (merchant : List Char) (amount : ℚ) : Option Record :=
  let merchant_lower := pyLower merchant
  if containsAny STATEMENT_NOISE_KEYWORDS merchant_lower then none
  else if amount < 0 then
    some ⟨date, card, merchant, -|amount|, .credit, bank⟩
  else if containsAny CREDIT_KEYWORDS merchant_lower then
    some ⟨date, card, merchant, -|amount|, .credit, bank⟩
  else
    some ⟨date, card, merchant, |amount|, .spend, bank⟩

/-- Generic row branch (src/parser.py lines 250-262): the line must pass
`is_transaction_row`; the amount is the last whitespace-delimited token
(a `ValueError` from `normalize_amount` skips the line), the date is
parsed from the first token, and the merchant is everything between. -/
def genericCandidate (year : Nat) (line : List Char) :
    Option (Option PDate × List Char × ℚ) :=
  if is_transaction_row line then
    match (pyWords line).getLast? with
    | none => none
    | some lastW =>
      match normalize_amount lastW with
      | none => none
      | some a =>
        some (parse_date year ((pyWords line).headD []),
          pyStrip (joinSpace (((pyWords line).drop 1).dropLast)), a)
  else none

/-- The per-issuer candidate extraction of the `for line in lines` loop
(src/parser.py lines 178-262): the issuer branch yields (date, merchant,
amount) or drops the line.  Banks without a dedicated branch (discover,
apple, generic) fall through to the generic branch.  An amount whose
regex-matched token failed to parse is modelled as a dropped line (the
row regexes guarantee this cannot happen). -/
def rowCandidate (year : Nat) (bank : Bank) (line : List Char) :
    Option (Option PDate × List Char × ℚ) :=
  match bank with
  | .capital_one =>
    match matchCapOne line with
    | none => none
    | some (dtok, desc, amt) =>
      match normalize_amount amt with
      | none => none
      | some a => some (parse_date year dtok, pyStrip desc, a)
  | .barclays =>
    match matchBarclays line with
    | none => none
    | some (dtok, desc, amt) =>
      match normalize_amount amt with
      | none => none
      | some a => some (parse_date year dtok, pyStrip desc, a)
  | .bank_of_america =>
    match matchBoa line with
    | none => none
    | some (dtok, desc, amt) =>
      match pyFloat (amt.filter (fun c => c ≠ ',')) with
      | none => none
      | some a => some (parse_date year dtok, pyStrip desc, a)
  | .citi =>
    match matchCiti line with
    | none => none
    | some (dtok, amt) =>
      match normalize_amount amt with
      | none => none
      | some a => some (parse_date year dtok, pyStrip (citiSub2 (citiSub1 line)), a)
  | .amex =>
    match matchAmex (pyStrip (stripAmexJunk line)) with
    | none => none
    | some (dtok, desc, amt) =>
      match normalize_amount amt with
      | none => none
      | some a =>
        let a2 := match amt with
          | '-' :: _ => -|a|
          | _ => a
        some (parse_date year dtok, pyStrip desc, a2)
  | _ => genericCandidate year line

/-- One iteration of the row loop: issuer branch, then the shared noise
filter and classifier (src/parser.py lines 178-315). -/
def processLine (year : Nat) (card : List Char) (bank : Bank) (line : List Char) :
    Option Record :=
  match rowCandidate year bank line with
  | none => none
  | some (d, m, a) => filterClassify card bank d m a

/-- Row-level part of `extract_transactions_from_pdf`
(src/parser.py lines 150, 170-178 and the loop through line 315): bank
detection, line splitting/stripping, stitching for citi and amex, and
the per-line processing. -/
def extract_transaction_rows (year : Nat) (card : List Char) (text : List Char) :
    List Record :=
  let bank := detect_bank_type_from_filename card
  let raw_lines := ((text.splitOn '\n').map pyStrip).filter (fun l => l ≠ [])
  let lines := if bank = .citi || bank = .amex then stitch_wrapped_lines raw_lines
    else raw_lines
  lines.filterMap (processLine year card bank)

/-!  Summary extractors (src/parser_utils.py lines 113-430).  All the
summary regexes run under `re.IGNORECASE`; literal labels are matched
case-insensitively.  The capture group `([\d,]+\.\d{2})` is always fed
to `normalize_amount` (or `_money_to_float`, which performs the same
cleanup), which cannot fail on such a token. -/

/-- Case-insensitive literal prefix (the pattern is given lowercase);
returns the rest. -/
def ciPrefix (pat : List Char) (cs : List Char) : Option (List Char) :=
  if pat.isPrefixOf (pyLower (cs.take pat.length)) && pat.length ≤ cs.length then
    some (cs.drop pat.length)
  else none

/-- Capture group `([\d,]+\.\d{2})`: returns the captured token and the
rest. -/
def amtGroup (cs : List Char) : Option (List Char × List Char) :=
  let run := cs.takeWhile isDigitOrComma
  if run.length = 0 then none
  else
    match cs.drop run.length with
    | '.' :: d1 :: d2 :: r =>
      if d1.isDigit && d2.isDigit then some ((run ++ ['.', d1, d2]), r) else none
    | _ => none

/-- Regex `\s*` (maximal run; every follower in the summary patterns is
non-whitespace). -/
def wsStar (cs : List Char) : List Char :=
  cs.dropWhile pyWs

/-- Value of a captured amount group:
`normalize_amount(m.group(1))` / `_money_to_float(m.group(1))`.  The
group always parses, so the default is never exercised. -/
def groupAmount (g : List Char) : ℚ :=
  (normalize_amount g).getD 0

/-- Plain regex search: try the pattern at every position. -/
def scanPlain {α : Type} (tryAt : List Char → Option α) : List Char → Option α
  | [] => none
  | c :: cs =>
    match tryAt (c :: cs) with
    | some a => some a
    | none => scanPlain tryAt cs

/-- Regex search for a pattern that begins with `\b`: the try is given
whether the previous character is a word character. -/
def scanWithPrev {α : Type} (tryAt : Bool → List Char → Option α) :
    Bool → List Char → Option α
  | _, [] => none
  | prevW, c :: cs =>
    match tryAt prevW (c :: cs) with
    | some a => some a
    | none => scanWithPrev tryAt (isWordChar c) cs

/-- Lazy gap `.*?` without DOTALL: search without crossing a newline. -/
def scanSameLine {α : Type} (tryAt : List Char → Option α) : List Char → Option α
  | [] => none
  | c :: cs =>
    match tryAt (c :: cs) with
    | some a => some a
    | none => if c = '\n' then none else scanSameLine tryAt cs

/-- Search of `\bPurchases\b\s*\+?\s*\$?\s*([\d,]+\.\d{2})`
(src/parser_utils.py lines 116-120). -/
def searchBarclaysPurchases (text : List Char) : Option (List Char) :=
  scanWithPrev
    (fun prevW cs =>
      if prevW then none
      else
        match ciPrefix "purchases".toList cs with
        | none => none
        | some r =>
          if !boundaryAfter r then none
          else
            let r1 := wsStar r
            let r2 := match r1 with
              | '+' :: rr => wsStar rr
              | _ => r1
            let r3 := match r2 with
              | '$' :: rr => wsStar rr
              | _ => r2
            (amtGroup r3).map (fun g => g.1))
    false text

/-- Search of `LABEL.*?\$([\d,]+\.\d{2})` (same-line lazy gap), used by
the Barclays payments and other-credits patterns
(src/parser_utils.py lines 124-130). -/
def searchLabelGapDollar (label : List Char) (text : List Char) : Option (List Char) :=
  scanPlain
    (fun cs =>
      match ciPrefix label cs with
      | none => none
      | some r =>
        scanSameLine
          (fun cs2 =>
            match cs2 with
            | '$' :: rr => (amtGroup rr).map (fun g => g.1)
            | _ => none)
          r)
    text

/-- src/parser_utils.py lines 113-132 (`extract_barclays_summary`):
returns `(purchases, payments + credits)`; fields whose pattern does
not match keep their `0.0` initialisation. -/
def extract_barclays_summary (text : List Char) : ℚ × ℚ :=
  let purchases := match searchBarclaysPurchases text with
    | some g => groupAmount g
    | none => 0
  let payments := match searchLabelGapDollar "payments".toList text with
    | some g => groupAmount g
    | none => 0
  let credits := match searchLabelGapDollar "other credits".toList text with
    | some g => groupAmount g
    | none => 0
  (purchases, payments + credits)

/-- Search of `Transactions\s*\+\s*\$([\d,]+\.\d{2})`
(src/parser_utils.py lines 136-140). -/
def searchCapOneTransactions (text : List Char) : Option (List Char) :=
  scanPlain
    (fun cs =>
      match ciPrefix "transactions".toList cs with
      | none => none
      | some r =>
        match wsStar r with
        | '+' :: r1 =>
          match wsStar r1 with
          | '$' :: r2 => (amtGroup r2).map (fun g => g.1)
          | _ => none
        | _ => none)
    text

/-- src/parser_utils.py lines 135-143
(`extract_capital_one_transactions_total`): `None` when the pattern
does not match. -/
def extract_capital_one_transactions_total (text : List Char) : Option ℚ :=
  (searchCapOneTransactions text).map groupAmount

/-- Search of `Payments\s+-\s*\$([\d,]+\.\d{2})`
(src/parser_utils.py lines 152-156). -/
def searchCapOnePayments (text : List Char) : Option (List Char) :=
  scanPlain
    (fun cs =>
      match ciPrefix "payments".toList cs with
      | none => none
      | some r =>
        match wsPlus r with
        | none => none
        | some r1 =>
          match r1 with
          | '-' :: r2 =>
            match wsStar r2 with
            | '$' :: r3 => (amtGroup r3).map (fun g => g.1)
            | _ => none
          | _ => none)
    text

/-- Search of `Other Credits\s+\$([\d,]+\.\d{2})`
(src/parser_utils.py lines 160-164). -/
def searchCapOneOtherCredits (text : List Char) : Option (List Char) :=
  scanPlain
    (fun cs =>
      match ciPrefix "other credits".toList cs with
      | none => none
      | some r =>
        match wsPlus r with
        | none => none
        | some r1 =>
          match r1 with
          | '$' :: r2 => (amtGroup r2).map (fun g => g.1)
          | _ => none)
    text

/-- src/parser_utils.py lines 146-168
(`extract_capital_one_payments_and_credits`): operates on the first
page's text and returns `payments + credits`, each defaulting to `0.0`
when its pattern does not match.  A PDF is modelled as its list of page
texts; Python raises `IndexError` on a page-less PDF, a case no claim
exercises, so the first page defaults to the empty text here. -/
def extract_capital_one_payments_and_credits (pdf : List (List Char)) : ℚ :=
  let first_page_text := pdf.headD []
  let payments := match searchCapOnePayments first_page_text with
    | some g => groupAmount g
    | none => 0
  let credits := match searchCapOneOtherCredits first_page_text with
    | some g => groupAmount g
    | none => 0
  payments + credits

/-- Search of `Purchases\s*\+?\$([\d,]+\.\d{2})`
(src/parser_utils.py line 175). -/
def searchDiscoverPurchases (text : List Char) : Option (List Char) :=
  scanPlain
    (fun cs =>
      match ciPrefix "purchases".toList cs with
      | none => none
      | some r =>
        let r1 := wsStar r
        let r2 := match r1 with
          | '+' :: rr => rr
          | _ => r1
        match r2 with
        | '$' :: r3 => (amtGroup r3).map (fun g => g.1)
        | _ => none)
    text

/-- Search of `-\s*\$([\d,]+\.\d{2})` (src/parser_utils.py line 176). -/
def searchDiscoverPaymentsCredits (text : List Char) : Option (List Char) :=
  scanPlain
    (fun cs =>
      match cs with
      | '-' :: r =>
        match wsStar r with
        | '$' :: r1 => (amtGroup r1).map (fun g => g.1)
        | _ => none
      | _ => none)
    text

/-- src/parser_utils.py lines 170-191 (`extract_discover_summary`):
returns `(purchases, payments_credits, None)` — each `None` when its
pattern finds nothing.  The previous-balance and new-balance entries of
the internal dict are computed but never returned, so they are not
modelled. -/
def extract_discover_summary (text : List Char) : Option ℚ × Option ℚ × Option ℚ :=
  ((searchDiscoverPurchases text).map groupAmount,
   (searchDiscoverPaymentsCredits text).map groupAmount,
   none)

/-- Search of `New\s*Balance\s*:?\s*\$([\d,]+\.\d{2})`
(src/parser_utils.py lines 195-199). -/
def searchDiscoverNewBalance (text : List Char) : Option (List Char) :=
  scanPlain
    (fun cs =>
      match ciPrefix "new".toList cs with
      | none => none
      | some r =>
        match ciPrefix "balance".toList (wsStar r) with
        | none => none
        | some r1 =>
          let r2 := wsStar r1
          let r3 := match r2 with
            | ':' :: rr => wsStar rr
            | _ => r2
          match r3 with
          | '$' :: r4 => (amtGroup r4).map (fun g => g.1)
          | _ => none)
    text

/-- src/parser_utils.py lines 194-205
(`extract_discover_statement_balance`). -/
def extract_discover_statement_balance (text : List Char) : Option ℚ :=
  (searchDiscoverNewBalance text).map groupAmount

/-- Search of `LABEL\s*SIGN\$([\d,]+\.\d{2})` where SIGN is a literal
`-` or `+` (the Citi summary patterns, src/parser_utils.py
lines 211-221). -/
def searchLabelSignDollar (label : List Char) (sign : Char) (text : List Char) :
    Option (List Char) :=
  scanPlain
    (fun cs =>
      match ciPrefix label cs with
      | none => none
      | some r =>
        match wsStar r with
        | s :: '$' :: r1 =>
          if s = sign then (amtGroup r1).map (fun g => g.1) else none
        | _ => none)
    text

/-- src/parser_utils.py lines 208-227 (`extract_citi_summary`): returns
`(purchases, payments_credits_total)`; the total is `None` only when
both the payments and credits patterns fail. -/
def extract_citi_summary (text : List Char) : Option ℚ × Option ℚ :=
  let payments := (searchLabelSignDollar "payments".toList '-' text).map groupAmount
  let credits := (searchLabelSignDollar "credits".toList '-' text).map groupAmount
  let purchases := (searchLabelSignDollar "purchases".toList '+' text).map groupAmount
  let payments_credits_total :=
    if payments.isSome || credits.isSome then
      some (payments.getD 0 + credits.getD 0)
    else none
  (purchases, payments_credits_total)

/-- Search of `Payments and Other Credits\s*-\$([\d,]+\.\d{2})`
(src/parser_utils.py lines 233-237). -/
def searchBoaPaymentsCredits (text : List Char) : Option (List Char) :=
  searchLabelSignDollar "payments and other credits".toList '-' text

/-- Search of `Purchases and Adjustments\s*\$([\d,]+\.\d{2})`
(src/parser_utils.py lines 242-246). -/
def searchBoaPurchases (text : List Char) : Option (List Char) :=
  scanPlain
    (fun cs =>
      match ciPrefix "purchases and adjustments".toList cs with
      | none => none
      | some r =>
        match wsStar r with
        | '$' :: r1 => (amtGroup r1).map (fun g => g.1)
        | _ => none)
    text

/-- src/parser_utils.py lines 229-250 (`extract_bank_of_america_summary`):
returns `(spend_total, payments_credits)`, each `None` when its pattern
does not match. -/
def extract_bank_of_america_summary (text : List Char) : Option ℚ × Option ℚ :=
  ((searchBoaPurchases text).map groupAmount,
   (searchBoaPaymentsCredits text).map groupAmount)

/-!  Amex and Apple summary extraction (src/parser_utils.py
lines 253-430).  Both first normalise whitespace:
`re.sub(r"[ \t]+", " ", text)` then `re.sub(r"\r", "\n", t)`. -/

/-- Is the character a space or a tab? -/
def isSpaceTab (c : Char) : Bool :=
  c = ' ' || c = '\t'

/-- `re.sub(r"[ \t]+", " ", text)` (fuel as in `pyWordsFuel`). -/
def collapseSpaceTabFuel : Nat → List Char → List Char
  | 0, l => l
  | _, [] => []
  | fuel + 1, c :: cs =>
    if isSpaceTab c then ' ' :: collapseSpaceTabFuel fuel (cs.dropWhile isSpaceTab)
    else c :: collapseSpaceTabFuel fuel cs

/-- `re.sub(r"[ \t]+", " ", text)`. -/
def collapseSpaceTab (l : List Char) : List Char :=
  collapseSpaceTabFuel l.length l

/-- `re.sub(r"\r", "\n", t)`. -/
def crToNl (cs : List Char) : List Char :=
  cs.map (fun c => if c = '\r' then '\n' else c)

/-- The whitespace normalisation shared by the Amex and Apple
extractors. -/
def normalizeWsText (text : List Char) : List Char :=
  crToNl (collapseSpaceTab text)

/-- Sub-pattern `New Balance\s*=\s*\$?([\d,]+\.\d{2})` at the head. -/
def amexNewBalanceEqAt (cs : List Char) : Option (List Char) :=
  match ciPrefix "new balance".toList cs with
  | none => none
  | some r =>
    match wsStar r with
    | '=' :: r1 =>
      let r2 := wsStar r1
      let r3 := match r2 with
        | '$' :: rr => rr
        | _ => r2
      (amtGroup r3).map (fun g => g.1)
    | _ => none

/-- Sub-pattern `Payments/Credits\s*-\s*\$?([\d,]+\.\d{2})` at the
head. -/
def amexPaymentsCreditsAt (cs : List Char) : Option (List Char) :=
  match ciPrefix "payments/credits".toList cs with
  | none => none
  | some r =>
    match wsStar r with
    | '-' :: r1 =>
      let r2 := wsStar r1
      let r3 := match r2 with
        | '$' :: rr => rr
        | _ => r2
      (amtGroup r3).map (fun g => g.1)
    | _ => none

/-- Sub-pattern `New Charges\s*\+?\s*\$?\s*([\d,]+\.\d{2})` at the
head. -/
def amexNewChargesAt (cs : List Char) : Option (List Char) :=
  match ciPrefix "new charges".toList cs with
  | none => none
  | some r =>
    let r1 := wsStar r
    let r2 := match r1 with
      | '+' :: rr => wsStar rr
      | _ => r1
    let r3 := match r2 with
      | '$' :: rr => wsStar rr
      | _ => r2
    (amtGroup r3).map (fun g => g.1)

/-- Search of `LABEL.*?SUB` with `re.DOTALL`: the lazy gap may cross
newlines. -/
def searchLabelDotAll {α : Type} (label : List Char) (sub : List Char → Option α)
    (text : List Char) : Option α :=
  scanPlain
    (fun cs =>
      match ciPrefix label cs with
      | none => none
      | some r => scanPlain sub r)
    text

/-- Search of `\bNew Balance\b\s*\$?([\d,]+\.\d{2})`
(src/parser_utils.py line 286). -/
def searchAmexNewBalanceFallback (text : List Char) : Option (List Char) :=
  scanWithPrev
    (fun prevW cs =>
      if prevW then none
      else
        match ciPrefix "new balance".toList cs with
        | none => none
        | some r =>
          if !boundaryAfter r then none
          else
            let r1 := wsStar r
            let r2 := match r1 with
              | '$' :: rr => rr
              | _ => r1
            (amtGroup r2).map (fun g => g.1))
    false text

/-- Tokens found by `re.findall(r"\$[\d,]+\.\d{2}", s)` in order (fuel
as in `pyWordsFuel`). -/
def findallDollarToksFuel : Nat → List Char → List (List Char)
  | 0, _ => []
  | _, [] => []
  | fuel + 1, c :: cs =>
    match amtDollarAt (c :: cs) with
    | some n => ((c :: cs).take n) :: findallDollarToksFuel fuel (cs.drop (n - 1))
    | none => findallDollarToksFuel fuel cs

/-- Tokens found by `re.findall(r"\$[\d,]+\.\d{2}", s)` in order. -/
def findallDollarToks (l : List Char) : List (List Char) :=
  findallDollarToksFuel l.length l

/-- src/parser_utils.py lines 253-340 (`extract_amex_summary`): returns
`(statement_balance, payments_credits_total, spend_total)`; each field
tries a primary pattern, then a fallback, then stays `None`. -/
def extract_amex_summary (text : List Char) : Option ℚ × Option ℚ × Option ℚ :=
  if text = [] then (none, none, none)
  else
    let t := normalizeWsText text
    let payOverTime := "pay over time and/or cash advance".toList
    let accountTotal := "account total".toList
    let statement_balance :=
      match searchLabelDotAll payOverTime amexNewBalanceEqAt t with
      | some g => some (groupAmount g)
      | none => (searchAmexNewBalanceFallback t).map groupAmount
    let payments_credits_total :=
      match searchLabelDotAll payOverTime amexPaymentsCreditsAt t with
      | some g => some (groupAmount g)
      | none => (searchLabelDotAll accountTotal amexPaymentsCreditsAt t).map groupAmount
    let spend_total :=
      match searchLabelDotAll accountTotal amexNewChargesAt t with
      | some g => some (groupAmount g)
      | none =>
        match (t.splitOn '\n').find?
            (fun l => containsSub "total new charges".toList (pyLower l)) with
        | none => none
        | some line => ((findallDollarToks line).getLast?).map groupAmount
    (statement_balance, payments_credits_total, spend_total)

/-- Line match of `(?im)^\s*Total Balance\s*\$([\d,]+\.\d{2})\s*$`
(src/parser_utils.py lines 368-371). -/
def appleBalanceLine (l : List Char) : Option ℚ :=
  match ciPrefix "total balance".toList (l.dropWhile pyWs) with
  | none => none
  | some r =>
    match wsStar r with
    | '$' :: r1 =>
      match amtGroup r1 with
      | some (g, rest) => if rest.dropWhile pyWs = [] then some (groupAmount g) else none
      | none => none
    | _ => none

/-- src/parser_utils.py lines 343-376 (`extract_apple_statement_balance`):
page 1 only; `None` for a page-less PDF or blank first page; the
`Total Balance` line is the only pattern. -/
def extract_apple_statement_balance (pdf : List (List Char)) : Option ℚ :=
  match pdf with
  | [] => none
  | p0 :: _ =>
    if pyStrip p0 = [] then none
    else
      let t := normalizeWsText p0
      firstSome (t.splitOn '\n') appleBalanceLine

/-- Line match of `(?im)^LABEL\s+-?\$([\d,]+\.\d{2})\s*$` where the
optional minus is only present for the payments pattern. -/
def appleTotalLine (label : List Char) (allowMinus : Bool) (l : List Char) : Option ℚ :=
  match ciPrefix label l with
  | none => none
  | some r =>
    match wsPlus r with
    | none => none
    | some r1 =>
      let r2 := match r1 with
        | '-' :: rr => if allowMinus then rr else '-' :: rr
        | _ => r1
      match r2 with
      | '$' :: r3 =>
        match amtGroup r3 with
        | some (g, rest) => if rest.dropWhile pyWs = [] then some (groupAmount g) else none
        | none => none
      | _ => none

/-- src/parser_utils.py lines 378-402 (`extract_apple_total_payments`):
`(?im)^Total payments for this period\s+-?\$([\d,]+\.\d{2})\s*$` over
the joined page texts; returns the positive magnitude. -/
def extract_apple_total_payments (pdf : List (List Char)) : Option ℚ :=
  match pdf with
  | [] => none
  | _ =>
    let text := List.intercalate ['\n'] pdf
    let t := normalizeWsText text
    firstSome (t.splitOn '\n')
      (appleTotalLine "total payments for this period".toList true)

/-- src/parser_utils.py lines 404-430 (`extract_apple_total_spend`):
`(?im)^Total charges, credits and returns\s+\$([\d,]+\.\d{2})\s*$`. -/
def extract_apple_total_spend (pdf : List (List Char)) : Option ℚ :=
  match pdf with
  | [] => none
  | _ =>
    let text := List.intercalate ['\n'] pdf
    let t := normalizeWsText text
    firstSome (t.splitOn '\n')
      (appleTotalLine "total charges, credits and returns".toList false)

/-!  Summary dispatch and reconciliation (src/parser.py lines 323-389). -/

/-- The per-issuer summary dispatch (src/parser.py lines 329-354),
yielding `(spend_total, payments_credits_total)` as they stand when the
fallback block at line 356 is reached.  For Barclays and Capital One
the assigned values are plain floats, so they arrive as `some` even
when every pattern failed. -/
def summary_totals (bank : Bank) (text : List Char) (pdf : List (List Char)) :
    Option ℚ × Option ℚ :=
  match bank with
  | .barclays =>
    let sp := extract_barclays_summary text
    (some sp.1, some sp.2)
  | .capital_one =>
    (extract_capital_one_transactions_total text,
     some (extract_capital_one_payments_and_credits pdf))
  | .discover =>
    let sp := extract_discover_summary text
    (sp.1, sp.2.1)
  | .citi => extract_citi_summary text
  | .bank_of_america => extract_bank_of_america_summary text
  | .amex =>
    let sp := extract_amex_summary text
    (sp.2.2, sp.2.1)
  | .apple => (extract_apple_total_spend pdf, extract_apple_total_payments pdf)
  | .generic => (none, none)

/-- Sum of the amounts of the spend-kind rows
(`df[df["transaction_type"] == "spend"]["amount"].sum()`). -/
def sumSpendAmounts (df : List Record) : ℚ :=
  ((df.filter (fun r => r.transaction_type = .spend)).map Record.amount).sum

/-- Sum of the amounts of the credit-kind rows. -/
def sumCreditAmounts (df : List Record) : ℚ :=
  ((df.filter (fun r => r.transaction_type = .credit)).map Record.amount).sum

/-- The reconciled statement-level result attached to the returned
frame (src/parser.py lines 386-389). -/
structure SummaryOut where
  statement_balance : Option ℚ
  payments_credits_total : ℚ
  spend_total : ℚ
deriving DecidableEq, Repr

/-- src/parser.py lines 356-363 and 383-389 (the Reconciler): an
extracted total wins when present; a `None` spend total falls back to
the sum of spend rows, a `None` payments/credits total to the absolute
value of the sum of credit rows; the statement balance is passed
through unchanged, with no computed fallback. -/
def reconcile_totals (statement_balance : Option ℚ)
    (spend_total payments_credits_total : Option ℚ) (df : List Record) :
    SummaryOut :=
  { statement_balance := statement_balance
    payments_credits_total :=
      match payments_credits_total with
      | some v => v
      | none => |sumCreditAmounts df|
    spend_total :=
      match spend_total with
      | some v => v
      | none => sumSpendAmounts df }

/-!  Spec-side definitions, used only to state claims. -/

/-- Spec-side: a currency token of the form `-?\$?N(,NNN)*.NN`
(spec §8), optionally surrounded by whitespace (spec §4.4 "surrounding
whitespace" is stripped).  `first` is the leading digit group, `groups`
the comma-separated triples, `fracHi`/`fracLo` the two cent digits. -/
structure CurrencyToken where
  neg : Bool
  dollar : Bool
  first : List Nat
  groups : List (List Nat)
  fracHi : Nat
  fracLo : Nat
  ws1 : List Char
  ws2 : List Char

/-- ASCII digit character of a digit value. -/
def digitChar (d : Nat) : Char :=
  Char.ofNat (48 + d)

/-- Digit characters of a digit list. -/
def renderDigits (l : List Nat) : List Char :=
  l.map digitChar

/-- Well-formedness of a currency token. -/
def CurrencyToken.wf (t : CurrencyToken) : Prop :=
  t.first ≠ [] ∧ (∀ d ∈ t.first, d < 10) ∧
  (∀ g ∈ t.groups, g.length = 3 ∧ ∀ d ∈ g, d < 10) ∧
  t.fracHi < 10 ∧ t.fracLo < 10 ∧
  (∀ c ∈ t.ws1, pyWs c = true) ∧ (∀ c ∈ t.ws2, pyWs c = true)

/-- The literal text of a currency token. -/
def CurrencyToken.render (t : CurrencyToken) : List Char :=
  t.ws1 ++ (if t.neg then ['-'] else []) ++ (if t.dollar then ['$'] else []) ++
    renderDigits t.first ++ (t.groups.map (fun g => ',' :: renderDigits g)).flatten ++
    '.' :: renderDigits [t.fracHi, t.fracLo] ++ t.ws2

/-- Base-ten value of a digit list. -/
def digitsToNat (l : List Nat) : Nat :=
  l.foldl (fun a d => 10 * a + d) 0

/-- The literal digit value of a currency token, with its sign. -/
def CurrencyToken.value (t : CurrencyToken) : ℚ :=
  (if t.neg then (-1 : ℚ) else 1) *
    ((digitsToNat (t.first ++ t.groups.flatten) : ℚ) +
      ((10 * t.fracHi + t.fracLo : Nat) : ℚ) / 100)

/-- Spec-side: the ordered predicate/tag list of the Bank Format
Detector (spec §4.1), with the predicates of
`detect_bank_type_from_filename`, over the lowercased label. -/
def bankChecks : List ((List Char → Bool) × Bank) :=
  [(fun n => containsSub "apple card".toList n || containsSub "applecard".toList n ||
      containsSub "apple_card".toList n, .apple),
   (fun n => containsSub "amex".toList n || containsSub "americanexpress".toList n ||
      containsSub "american_express".toList n || amexDatePat n, .amex),
   (fun n => containsSub "venture".toList n || containsSub "capitalone".toList n ||
      containsSub "capital_one".toList n, .capital_one),
   (fun n => containsSub "barclays".toList n ||
      containsSub "creditcardstatement".toList n, .barclays),
   (fun n => containsSub "estmt".toList n || containsSub "bankofamerica".toList n ||
      containsSub "boa".toList n, .bank_of_america),
   (citiPat, .citi),
   (discoverPat, .discover)]

/-- First matching predicate wins; `generic` when none match. -/
def firstMatchBank : List ((List Char → Bool) × Bank) → List Char → Bank
  | [], _ => .generic
  | pb :: rest, n => if pb.1 n then pb.2 else firstMatchBank rest n

/-- Spec-side: the date-independent acceptance condition of the generic
row branch — the row test, a parseable last token, and a merchant free
of statement-noise keywords. -/
def genericAccept (line : List Char) : Bool :=
  is_transaction_row line &&
    (match (pyWords line).getLast? with
     | none => false
     | some w => (normalize_amount w).isSome) &&
    !containsAny STATEMENT_NOISE_KEYWORDS
      (pyLower (pyStrip (joinSpace (((pyWords line).drop 1).dropLast))))

/-!  Claims. -/

/-- C7: detect_bank_type_from_filename evaluates a fixed ordered list of
predicates top-to-bottom over the lowercased label, returns the issuer
tag of the first predicate that matches, and returns generic when none
match; in particular the label "CapitalOne_Venture_Statement.pdf"
always detects as capital_one and the label
"Barclays_CreditCardStatement_Jan2024.pdf" always detects as
barclays. -/
theorem C7_detection_first_match :
    (∀ card, detect_bank_type_from_filename card = firstMatchBank bankChecks (pyLower card)) ∧
    detect_bank_type_from_filename "CapitalOne_Venture_Statement.pdf".toList =
      Bank.capital_one ∧
    detect_bank_type_from_filename "Barclays_CreditCardStatement_Jan2024.pdf".toList =
      Bank.barclays := by
  refine ⟨fun card => ?_, by decide, by decide⟩
  simp only [detect_bank_type_from_filename, firstMatchBank, bankChecks]

/-- C8: under a stitching-enabled profile, stitching the two physical
lines "03/14 UBER TRIP" and "SAN FRANCISCO $12.34" produces exactly one
logical line that contains both fragments and exactly one
currency-amount token. -/
theorem C8_stitching_example :
    stitch_wrapped_lines ["03/14 UBER TRIP".toList, "SAN FRANCISCO $12.34".toList] =
      ["03/14 UBER TRIP SAN FRANCISCO $12.34".toList] ∧
    countAmounts "03/14 UBER TRIP SAN FRANCISCO $12.34".toList = 1 ∧
    containsSub "03/14 UBER TRIP".toList
      "03/14 UBER TRIP SAN FRANCISCO $12.34".toList = true ∧
    containsSub "SAN FRANCISCO $12.34".toList
      "03/14 UBER TRIP SAN FRANCISCO $12.34".toList = true := by
  exact ⟨by decide, by decide, by decide, by decide⟩

unseal Rat.add Rat.mul Rat.inv in
/-- C4 counterexample: under the generic profile the line
"02/02 ONLINE PAYMENT THANK YOU -$200.00" yields zero Transaction
Records, not one: its merchant contains the statement-noise keyword
"online payment", so the candidate is dropped before classification. -/
theorem C4_counterexample :
    (extract_transaction_rows 2026 "statement.pdf".toList
      "02/02 ONLINE PAYMENT THANK YOU -$200.00".toList).length = 0 := by
  decide

unseal Rat.add Rat.mul Rat.inv in
/-- C4 (amended): under the generic profile, processing the single
input line "02/02 ONLINE PAYMENT THANK YOU -$200.00" yields no
Transaction Record at all: the row grammar does extract the candidate
(date Feb 2, merchant "ONLINE PAYMENT THANK YOU", amount -200.00), but
the statement-noise filter drops it because the merchant contains
"online payment"; consequently the line contributes nothing to
total-purchases aggregation. -/
theorem C4_payment_line_dropped :
    extract_transaction_rows 2026 "statement.pdf".toList
      "02/02 ONLINE PAYMENT THANK YOU -$200.00".toList = [] ∧
    rowCandidate 2026 Bank.generic
      "02/02 ONLINE PAYMENT THANK YOU -$200.00".toList =
      some (some ⟨2026, 2, 2⟩, "ONLINE PAYMENT THANK YOU".toList, -200) ∧
    containsAny STATEMENT_NOISE_KEYWORDS
      (pyLower "ONLINE PAYMENT THANK YOU".toList) = true ∧
    sumSpendAmounts (extract_transaction_rows 2026 "statement.pdf".toList
      "02/02 ONLINE PAYMENT THANK YOU -$200.00".toList) = 0 := by
  exact ⟨by decide, by decide, by decide, by decide⟩

unseal Rat.add Rat.mul Rat.inv in
/-- C5 counterexample: the candidate line "01/15 $5.25" has an empty
description after trimming, yet it is not dropped: it produces a spend
record with an empty merchant. -/
theorem C5_counterexample :
    processLine 2026 "statement.pdf".toList Bank.generic "01/15 $5.25".toList =
      some ⟨some ⟨2026, 1, 15⟩, "statement.pdf".toList, [], mkRat 21 4,
        TxKind.spend, Bank.generic⟩ := by
  decide

unseal Rat.add Rat.mul Rat.inv in
/-- C5 (amended): the only description-based rejection is the
statement-noise keyword filter — a candidate is dropped if and only if
its description (lowercased) contains a statement-noise keyword;
descriptions that are empty, entirely non-letter, or shorter than three
characters are not rejected, as witnessed by the retained records of
the lines "01/15 $5.25" (empty merchant) and "01/15 AB $5.25"
(two-character merchant). -/
theorem C5_merchant_filter :
    (∀ (card : List Char) (bank : Bank) (date : Option PDate)
        (merchant : List Char) (amount : ℚ),
      filterClassify card bank date merchant amount = none ↔
        containsAny STATEMENT_NOISE_KEYWORDS (pyLower merchant) = true) ∧
    processLine 2026 "statement.pdf".toList Bank.generic "01/15 $5.25".toList =
      some ⟨some ⟨2026, 1, 15⟩, "statement.pdf".toList, [], mkRat 21 4,
        TxKind.spend, Bank.generic⟩ ∧
    processLine 2026 "statement.pdf".toList Bank.generic "01/15 AB $5.25".toList =
      some ⟨some ⟨2026, 1, 15⟩, "statement.pdf".toList, "AB".toList, mkRat 21 4,
        TxKind.spend, Bank.generic⟩ := by
  refine ⟨fun card bank date merchant amount => ?_, by decide, by decide⟩
  unfold filterClassify
  cases hn : containsAny STATEMENT_NOISE_KEYWORDS (pyLower merchant) with
  | true => simp [hn]
  | false =>
    simp only [hn, Bool.false_eq_true, if_false]
    constructor
    · intro hc
      split at hc
      · cases hc
      · split at hc <;> cases hc
    · intro hc
      simp [hn] at hc

/-- C2: for each summary field, an extracted non-null value takes
precedence in the Reconciler regardless of the row-level records; a
null spend total falls back to the sum of spend-kind amounts, a null
payments/credits total to the absolute value of the sum of credit-kind
amounts, and a null statement balance stays null (no computed
fallback). -/
theorem C2_reconciler_precedence :
    ∀ (bal sp pc : Option ℚ) (df : List Record),
      ((∀ v, sp = some v → (reconcile_totals bal sp pc df).spend_total = v) ∧
       (sp = none → (reconcile_totals bal sp pc df).spend_total = sumSpendAmounts df)) ∧
      ((∀ v, pc = some v → (reconcile_totals bal sp pc df).payments_credits_total = v) ∧
       (pc = none → (reconcile_totals bal sp pc df).payments_credits_total =
          |sumCreditAmounts df|)) ∧
      (reconcile_totals bal sp pc df).statement_balance = bal ∧
      (bal = none → (reconcile_totals bal sp pc df).statement_balance = none) := by
  intro bal sp pc df
  refine ⟨⟨fun v hv => ?_, fun hv => ?_⟩, ⟨fun v hv => ?_, fun hv => ?_⟩, rfl, fun hv => ?_⟩ <;>
    simp [reconcile_totals, hv]

unseal Rat.add Rat.mul Rat.inv in
/-- C2 witness: concrete instances of the reconciliation property. -/
theorem C2_reconciler_precedence_witness :
    (reconcile_totals none (some (mkRat 31809 50)) none
        [⟨none, [], [], 5, TxKind.spend, Bank.generic⟩]).spend_total = mkRat 31809 50 ∧
    (reconcile_totals none none none
        [⟨none, [], [], 5, TxKind.spend, Bank.generic⟩]).spend_total =
      sumSpendAmounts [⟨none, [], [], 5, TxKind.spend, Bank.generic⟩] ∧
    (reconcile_totals none none none
        [⟨none, [], [], -3, TxKind.credit, Bank.generic⟩]).payments_credits_total =
      |sumCreditAmounts [⟨none, [], [], -3, TxKind.credit, Bank.generic⟩]| ∧
    (reconcile_totals none none none ([] : List Record)).statement_balance = none :=
  ⟨(C2_reconciler_precedence none (some (mkRat 31809 50)) none _).1.1 _ rfl,
   (C2_reconciler_precedence none none none _).1.2 rfl,
   (C2_reconciler_precedence none none none _).2.1.2 rfl,
   (C2_reconciler_precedence none none none _).2.2.2 rfl⟩

theorem filterClassify_eq (card : List Char) (bank : Bank) (date : Option PDate)
    (merchant : List Char) (amount : ℚ) :
    filterClassify card bank date merchant amount =
      (if containsAny STATEMENT_NOISE_KEYWORDS (pyLower merchant) = true then none
       else if amount < 0 then
         some ⟨date, card, merchant, -|amount|, TxKind.credit, bank⟩
       else if containsAny CREDIT_KEYWORDS (pyLower merchant) = true then
         some ⟨date, card, merchant, -|amount|, TxKind.credit, bank⟩
       else some ⟨date, card, merchant, |amount|, TxKind.spend, bank⟩) := rfl

theorem filterClassify_sign (card : List Char) (bank : Bank) (date : Option PDate)
    (merchant : List Char) (amount : ℚ) (r : Record)
    (h : filterClassify card bank date merchant amount = some r) :
    (r.transaction_type = TxKind.credit → r.amount ≤ 0) ∧
    (r.transaction_type = TxKind.spend → 0 ≤ r.amount) := by
  rw [filterClassify_eq] at h
  by_cases h1 : containsAny STATEMENT_NOISE_KEYWORDS (pyLower merchant) = true
  · rw [if_pos h1] at h
    cases h
  · rw [if_neg h1] at h
    by_cases h2 : amount < 0
    · rw [if_pos h2] at h
      injection h with h4
      subst h4
      exact ⟨fun _ => by simp, fun hs => by cases hs⟩
    · rw [if_neg h2] at h
      by_cases h3 : containsAny CREDIT_KEYWORDS (pyLower merchant) = true
      · rw [if_pos h3] at h
        injection h with h4
        subst h4
        exact ⟨fun _ => by simp, fun hs => by cases hs⟩
      · rw [if_neg h3] at h
        injection h with h4
        subst h4
        exact ⟨fun hs => (by cases hs), fun _ => abs_nonneg amount⟩

/-- C1 (amended): for every Transaction Record produced by the row
pipeline, for any issuer and any input line, kind = credit implies
amount ≤ 0 and kind = spend implies amount ≥ 0.  The biconditional
`kind = credit ⟺ amount ≤ 0` of the original claim fails only at
amount = 0, which the classifier can label spend. -/
theorem C1_record_sign_invariant :
    ∀ (year : Nat) (card text : List Char) (r : Record),
      r ∈ extract_transaction_rows year card text →
        (r.transaction_type = TxKind.credit → r.amount ≤ 0) ∧
        (r.transaction_type = TxKind.spend → 0 ≤ r.amount) := by
  intro year card text r hr
  unfold extract_transaction_rows at hr
  rcases List.mem_filterMap.mp hr with ⟨line, -, hline⟩
  unfold processLine at hline
  rcases hc : rowCandidate year (detect_bank_type_from_filename card) line with - | ⟨d, m, a⟩
  · rw [hc] at hline
    cases hline
  · rw [hc] at hline
    exact filterClassify_sign _ _ _ _ _ _ hline

unseal Rat.add Rat.mul Rat.inv in
/-- C1 witness: the sign invariant at a concrete extracted record. -/
theorem C1_record_sign_invariant_witness :
    (⟨some ⟨2026, 1, 15⟩, "statement.pdf".toList, "STARBUCKS #123".toList,
        mkRat 21 4, TxKind.spend, Bank.generic⟩ : Record) ∈
      extract_transaction_rows 2026 "statement.pdf".toList
        "01/15 STARBUCKS #123 $5.25".toList ∧
    ((Record.mk (some ⟨2026, 1, 15⟩) "statement.pdf".toList "STARBUCKS #123".toList
        (mkRat 21 4) TxKind.spend Bank.generic).transaction_type = TxKind.credit →
      (Record.mk (some ⟨2026, 1, 15⟩) "statement.pdf".toList "STARBUCKS #123".toList
        (mkRat 21 4) TxKind.spend Bank.generic).amount ≤ 0) ∧
    ((Record.mk (some ⟨2026, 1, 15⟩) "statement.pdf".toList "STARBUCKS #123".toList
        (mkRat 21 4) TxKind.spend Bank.generic).transaction_type = TxKind.spend →
      0 ≤ (Record.mk (some ⟨2026, 1, 15⟩) "statement.pdf".toList "STARBUCKS #123".toList
        (mkRat 21 4) TxKind.spend Bank.generic).amount) :=
  ⟨by decide,
   (C1_record_sign_invariant 2026 "statement.pdf".toList
      "01/15 STARBUCKS #123 $5.25".toList _ (by decide)).1,
   (C1_record_sign_invariant 2026 "statement.pdf".toList
      "01/15 STARBUCKS #123 $5.25".toList _ (by decide)).2⟩

unseal Rat.add Rat.mul Rat.inv in
/-- C1 counterexample: the generic line "01/15 FOO BAR $0.00" produces
a record with kind = spend and amount 0 — a spend record with a
non-positive amount, so `kind = credit ⟺ amount ≤ 0` is violated. -/
theorem C1_counterexample :
    extract_transaction_rows 2026 "statement.pdf".toList "01/15 FOO BAR $0.00".toList =
      [⟨some ⟨2026, 1, 15⟩, "statement.pdf".toList, "FOO BAR".toList, 0,
        TxKind.spend, Bank.generic⟩] ∧
    (extract_transaction_rows 2026 "statement.pdf".toList
        "01/15 FOO BAR $0.00".toList).all
      (fun r => r.transaction_type = TxKind.spend && decide (r.amount ≤ 0)) = true := by
  exact ⟨by decide, by decide⟩

/-- C3 (amended): for the Capital One transactions-total, Citi,
Bank of America, Discover, Amex and Apple summary extractors, a field
none of whose label patterns matches resolves to null, so the
Reconciler's row-level fallback is triggered; the Barclays summary
extraction and the Capital One payments-and-credits extraction are the
exception — they return 0.0, not null, when no pattern matches, so the
fallback is not triggered for those fields. -/
theorem C3_null_or_zero_fields :
    ∀ (text : List Char) (pdf : List (List Char)),
      (searchCapOneTransactions text = none →
        extract_capital_one_transactions_total text = none) ∧
      (searchLabelSignDollar "payments".toList '-' text = none →
       searchLabelSignDollar "credits".toList '-' text = none →
       searchLabelSignDollar "purchases".toList '+' text = none →
        extract_citi_summary text = (none, none)) ∧
      (searchBoaPurchases text = none → searchBoaPaymentsCredits text = none →
        extract_bank_of_america_summary text = (none, none)) ∧
      (searchDiscoverPurchases text = none →
       searchDiscoverPaymentsCredits text = none →
        extract_discover_summary text = (none, none, none)) ∧
      (searchDiscoverNewBalance text = none →
        extract_discover_statement_balance text = none) ∧
      (searchLabelDotAll "pay over time and/or cash advance".toList amexNewBalanceEqAt
          (normalizeWsText text) = none →
       searchAmexNewBalanceFallback (normalizeWsText text) = none →
       searchLabelDotAll "pay over time and/or cash advance".toList amexPaymentsCreditsAt
          (normalizeWsText text) = none →
       searchLabelDotAll "account total".toList amexPaymentsCreditsAt
          (normalizeWsText text) = none →
       searchLabelDotAll "account total".toList amexNewChargesAt
          (normalizeWsText text) = none →
       ((normalizeWsText text).splitOn '\n').find?
          (fun l => containsSub "total new charges".toList (pyLower l)) = none →
        extract_amex_summary text = (none, none, none)) ∧
      (firstSome ((normalizeWsText (pdf.headD [])).splitOn '\n') appleBalanceLine = none →
        extract_apple_statement_balance pdf = none) ∧
      (firstSome ((normalizeWsText (List.intercalate ['\n'] pdf)).splitOn '\n')
          (appleTotalLine "total payments for this period".toList true) = none →
        extract_apple_total_payments pdf = none) ∧
      (firstSome ((normalizeWsText (List.intercalate ['\n'] pdf)).splitOn '\n')
          (appleTotalLine "total charges, credits and returns".toList false) = none →
        extract_apple_total_spend pdf = none) ∧
      (searchBarclaysPurchases text = none →
       searchLabelGapDollar "payments".toList text = none →
       searchLabelGapDollar "other credits".toList text = none →
        extract_barclays_summary text = (0, 0)) ∧
      (searchCapOnePayments (pdf.headD []) = none →
       searchCapOneOtherCredits (pdf.headD []) = none →
        extract_capital_one_payments_and_credits pdf = 0) := by
  intro text pdf
  refine ⟨fun h1 => ?_, fun h1 h2 h3 => ?_, fun h1 h2 => ?_, fun h1 h2 => ?_,
    fun h1 => ?_, fun h1 h2 h3 h4 h5 h6 => ?_, fun h1 => ?_, fun h1 => ?_,
    fun h1 => ?_, fun h1 h2 h3 => ?_, fun h1 h2 => ?_⟩
  · simp only [extract_capital_one_transactions_total]
    rw [h1]
    rfl
  · simp only [extract_citi_summary]
    rw [h1, h2, h3]
    simp
  · simp only [extract_bank_of_america_summary]
    rw [h1, h2]
    rfl
  · simp only [extract_discover_summary]
    rw [h1, h2]
    rfl
  · simp only [extract_discover_statement_balance]
    rw [h1]
    rfl
  · by_cases ht : text = []
    · simp [extract_amex_summary, ht]
    · simp only [extract_amex_summary, if_neg ht]
      rw [h1, h2, h3, h4, h5, h6]
      rfl
  · cases pdf with
    | nil => simp [extract_apple_statement_balance]
    | cons p0 ps =>
      by_cases hp : pyStrip p0 = []
      · simp [extract_apple_statement_balance, hp]
      · simp only [extract_apple_statement_balance, if_neg hp]
        simpa using h1
  · cases pdf with
    | nil => simp [extract_apple_total_payments]
    | cons p0 ps =>
      simp only [extract_apple_total_payments]
      simpa using h1
  · cases pdf with
    | nil => simp [extract_apple_total_spend]
    | cons p0 ps =>
      simp only [extract_apple_total_spend]
      simpa using h1
  · simp only [extract_barclays_summary]
    rw [h1, h2, h3]
    simp
  · simp only [extract_capital_one_payments_and_credits]
    rw [h1, h2]
    simp

unseal Rat.add Rat.mul Rat.inv in
/-- C3 witness: at the empty document (and an empty single-page PDF)
every pattern fails, the Option-returning extractors all yield null,
and the Barclays and Capital One payments-and-credits extractors yield
0.0. -/
theorem C3_null_or_zero_fields_witness :
    (extract_capital_one_transactions_total [] = none ∧
     extract_citi_summary [] = (none, none) ∧
     extract_bank_of_america_summary [] = (none, none) ∧
     extract_discover_summary [] = (none, none, none) ∧
     extract_discover_statement_balance [] = none ∧
     extract_amex_summary [] = (none, none, none) ∧
     extract_apple_statement_balance [[]] = none ∧
     extract_apple_total_payments [[]] = none ∧
     extract_apple_total_spend [[]] = none) ∧
    extract_barclays_summary [] = (0, 0) ∧
    extract_capital_one_payments_and_credits [[]] = 0 :=
  ⟨⟨(C3_null_or_zero_fields [] [[]]).1 (by decide),
    (C3_null_or_zero_fields [] [[]]).2.1 (by decide) (by decide) (by decide),
    (C3_null_or_zero_fields [] [[]]).2.2.1 (by decide) (by decide),
    (C3_null_or_zero_fields [] [[]]).2.2.2.1 (by decide) (by decide),
    (C3_null_or_zero_fields [] [[]]).2.2.2.2.1 (by decide),
    (C3_null_or_zero_fields [] [[]]).2.2.2.2.2.1 (by decide) (by decide) (by decide)
      (by decide) (by decide) (by decide),
    (C3_null_or_zero_fields [] [[]]).2.2.2.2.2.2.1 (by decide),
    (C3_null_or_zero_fields [] [[]]).2.2.2.2.2.2.2.1 (by decide),
    (C3_null_or_zero_fields [] [[]]).2.2.2.2.2.2.2.2.1 (by decide)⟩,
   (C3_null_or_zero_fields [] [[]]).2.2.2.2.2.2.2.2.2.1 (by decide) (by decide)
     (by decide),
   (C3_null_or_zero_fields [] [[]]).2.2.2.2.2.2.2.2.2.2 (by decide) (by decide)⟩

unseal Rat.add Rat.mul Rat.inv in
/-- C3 counterexample: on a document where no Barclays label pattern
matches, the Barclays summary extraction returns (0.0, 0.0) — not null
— and likewise the Capital One payments-and-credits extraction returns
0.0; fed through the summary dispatch these arrive at the Reconciler as
non-null, so the row-level fallback is not triggered: the reconciled
spend total is 0 even though the records sum to 5. -/
theorem C3_counterexample :
    extract_barclays_summary [] = (0, 0) ∧
    extract_capital_one_payments_and_credits [[]] = 0 ∧
    summary_totals Bank.barclays [] [[]] = (some 0, some 0) ∧
    (reconcile_totals none (some 0) (some 0)
        [⟨none, [], [], 5, TxKind.spend, Bank.generic⟩]).spend_total = 0 ∧
    sumSpendAmounts [⟨none, [], [], 5, TxKind.spend, Bank.generic⟩] = 5 := by
  exact ⟨by decide, by decide, by decide, by decide, by decide⟩

/-- C9: parse_date tries, in order, MM/DD/YY on the stripped token,
then MM/DD with the current year, then Mon DD with the current year,
returning the first success and null when all fail; and a generic-row
candidate is retained independently of the date parse — acceptance is
exactly `genericAccept`, which does not consult the date, and the date
field of a produced record is whatever `parse_date` returned, possibly
null. -/
theorem C9_parse_date_order_and_retention :
    (∀ (year : Nat) (token : List Char) (d : PDate),
        strptime_mdy2 (pyStrip token) = some d → parse_date year token = some d) ∧
    (∀ (year : Nat) (token : List Char) (d : PDate),
        strptime_mdy2 (pyStrip token) = none →
        strptime_mdY (pyStrip token ++ '/' :: yearChars year) = some d →
        parse_date year token = some d) ∧
    (∀ (year : Nat) (token : List Char),
        strptime_mdy2 (pyStrip token) = none →
        strptime_mdY (pyStrip token ++ '/' :: yearChars year) = none →
        parse_date year token = strptime_bdY (pyStrip token ++ ' ' :: yearChars year)) ∧
    (∀ (year : Nat) (card line : List Char),
        (processLine year card Bank.generic line).isSome = genericAccept line) ∧
    (∀ (year : Nat) (card line : List Char) (r : Record),
        processLine year card Bank.generic line = some r →
        r.date = parse_date year ((pyWords line).headD [])) := by
  have hacc : ∀ (year : Nat) (card line : List Char),
      (processLine year card Bank.generic line).isSome = genericAccept line := by
    intro year card line
    simp only [processLine, rowCandidate, genericCandidate, genericAccept]
    cases hitr : is_transaction_row line with
    | false => simp [hitr]
    | true =>
      simp only [hitr, if_true, Bool.true_and]
      cases hlast : (pyWords line).getLast? with
      | none => simp
      | some w =>
        cases hnorm : normalize_amount w with
        | none => simp [hnorm]
        | some a =>
          simp only [hnorm, Option.isSome_some, Bool.true_and]
          rw [filterClassify_eq]
          cases hnoise : containsAny STATEMENT_NOISE_KEYWORDS
              (pyLower (pyStrip (joinSpace (((pyWords line).drop 1).dropLast)))) with
          | true => simp [hnoise]
          | false =>
            simp only [hnoise, Bool.false_eq_true, if_false, Bool.not_false]
            split
            · simp
            · split <;> simp
  refine ⟨fun year token d h1 => ?_, fun year token d h1 h2 => ?_,
    fun year token h1 h2 => ?_, hacc, fun year card line r h => ?_⟩
  · unfold parse_date
    rw [h1]
  · unfold parse_date
    rw [h1, h2]
  · unfold parse_date
    rw [h1, h2]
  · simp only [processLine, rowCandidate, genericCandidate] at h
    by_cases hitr : is_transaction_row line = true
    · rw [if_pos hitr] at h
      rcases hlast : (pyWords line).getLast? with - | w
      · rw [hlast] at h
        cases h
      · rw [hlast] at h
        dsimp only at h
        rcases hnorm : normalize_amount w with - | a
        · rw [hnorm] at h
          cases h
        · rw [hnorm] at h
          dsimp only at h
          rw [filterClassify_eq] at h
          by_cases hn : containsAny STATEMENT_NOISE_KEYWORDS
              (pyLower (pyStrip (joinSpace (((pyWords line).drop 1).dropLast)))) = true
          · rw [if_pos hn] at h
            cases h
          · rw [if_neg hn] at h
            by_cases ha : a < 0
            · rw [if_pos ha] at h
              injection h with h4
              subst h4
              rfl
            · rw [if_neg ha] at h
              by_cases hk : containsAny CREDIT_KEYWORDS
                  (pyLower (pyStrip (joinSpace (((pyWords line).drop 1).dropLast)))) = true
              · rw [if_pos hk] at h
                injection h with h4
                subst h4
                rfl
              · rw [if_neg hk] at h
                injection h with h4
                subst h4
                rfl
    · rw [if_neg hitr] at h
      cases h

unseal Rat.add Rat.mul Rat.inv in
/-- C9 witness: the three attempt orders at concrete tokens, and the
retained null-date record of the line "13/45 FOO BAR $5.00". -/
theorem C9_parse_date_order_and_retention_witness :
    parse_date 2026 "03/14/24".toList = some ⟨2024, 3, 14⟩ ∧
    parse_date 2026 "01/15".toList = some ⟨2026, 1, 15⟩ ∧
    parse_date 2026 "Mar 5".toList =
      strptime_bdY (pyStrip "Mar 5".toList ++ ' ' :: yearChars 2026) ∧
    (processLine 2026 "statement.pdf".toList Bank.generic
        "13/45 FOO BAR $5.00".toList).isSome = genericAccept "13/45 FOO BAR $5.00".toList ∧
    (⟨none, "statement.pdf".toList, "FOO BAR".toList, 5, TxKind.spend,
        Bank.generic⟩ : Record).date = parse_date 2026 ((pyWords "13/45 FOO BAR $5.00".toList).headD []) :=
  ⟨C9_parse_date_order_and_retention.1 2026 "03/14/24".toList ⟨2024, 3, 14⟩ (by decide),
   C9_parse_date_order_and_retention.2.1 2026 "01/15".toList ⟨2026, 1, 15⟩
     (by decide) (by decide),
   C9_parse_date_order_and_retention.2.2.1 2026 "Mar 5".toList (by decide) (by decide),
   C9_parse_date_order_and_retention.2.2.2.1 2026 "statement.pdf".toList
     "13/45 FOO BAR $5.00".toList,
   C9_parse_date_order_and_retention.2.2.2.2 2026 "statement.pdf".toList
     "13/45 FOO BAR $5.00".toList _ (by decide)⟩

/-!  Support lemmas for the stitcher invariant (C10). -/

theorem amtDollarAt_ne {c : Char} (cs : List Char) (h : c ≠ '$') :
    amtDollarAt (c :: cs) = none := by
  unfold amtDollarAt
  split
  · next heq => cases heq; exact absurd rfl h
  · rfl

theorem amtAt_ws {c : Char} (cs : List Char) (h : pyWs c = true) :
    amtAt (c :: cs) = none := by
  have hd : c ≠ '-' := by
    intro he
    subst he
    simp [pyWs] at h
  have hs : c ≠ '$' := by
    intro he
    subst he
    simp [pyWs] at h
  unfold amtAt
  split
  · next heq => cases heq; exact absurd rfl hd
  · exact amtDollarAt_ne cs hs

theorem hasAmountL_dropWhile {l : List Char} (h : hasAmountL l = true) :
    hasAmountL (l.dropWhile pyWs) = true := by
  induction l with
  | nil => simpa using h
  | cons c cs ih =>
    by_cases hc : pyWs c = true
    · rw [List.dropWhile_cons_of_pos hc]
      apply ih
      have := amtAt_ws cs hc
      simpa [hasAmountL, this] using h
    · rwa [List.dropWhile_cons_of_neg (by simpa using hc)]

theorem dropWhile_head_false {p : Char → Bool} {l t : List Char} {c : Char}
    (h : l.dropWhile p = c :: t) : p c = false := by
  induction l with
  | nil => cases h
  | cons a as ih =>
    by_cases ha : p a = true
    · rw [List.dropWhile_cons_of_pos ha] at h
      exact ih h
    · rw [List.dropWhile_cons_of_neg (by simpa using ha)] at h
      cases h
      simpa using ha

theorem getLast?_dropWhile {p : Char → Bool} {l : List Char}
    (h : l.dropWhile p ≠ []) : (l.dropWhile p).getLast? = l.getLast? := by
  induction l with
  | nil => simp at h
  | cons a as ih =>
    by_cases ha : p a = true
    · rw [List.dropWhile_cons_of_pos ha] at h ⊢
      have has : as ≠ [] := by
        intro he
        subst he
        simp at h
      rw [ih h]
      cases as with
      | nil => exact absurd rfl has
      | cons b bs => simp [List.getLast?_cons_cons]
    · rw [List.dropWhile_cons_of_neg (by simpa using ha)]

/-- The last character, when there is one, is not whitespace. -/
def LastOk (l : List Char) : Prop :=
  ∀ c, l.getLast? = some c → pyWs c = false

theorem lastOk_nil : LastOk [] := by
  intro c hc
  cases hc

/-- On a buffer whose last character is not whitespace, `.strip()` only
drops the leading whitespace, and it preserves both the amount token
and nonemptiness. -/
theorem pyStrip_of_lastOk {l : List Char} (hl : LastOk l)
    (ha : hasAmountL l = true) :
    hasAmountL (pyStrip l) = true ∧ pyStrip l ≠ [] := by
  have hd : hasAmountL (l.dropWhile pyWs) = true := hasAmountL_dropWhile ha
  have hdne : l.dropWhile pyWs ≠ [] := by
    intro he
    rw [he] at hd
    cases hd
  have hlast : (l.dropWhile pyWs).getLast? = l.getLast? := getLast?_dropWhile hdne
  have hstrip : pyStrip l = l.dropWhile pyWs := by
    unfold pyStrip
    rcases hrev : (l.dropWhile pyWs).reverse with - | ⟨c, rest⟩
    · exact absurd (by simpa using hrev) hdne
    · have hc : pyWs c = false := by
        apply hl
        rw [← hlast, ← List.head?_reverse, hrev]
        rfl
      have hstep : List.dropWhile pyWs (c :: rest) = c :: rest :=
        List.dropWhile_cons_of_neg (by simpa using hc)
      rw [hstep, ← hrev, List.reverse_reverse]
  rw [hstrip]
  exact ⟨hd, hdne⟩

theorem lastOk_pyStrip (raw : List Char) : LastOk (pyStrip raw) := by
  intro c hc
  unfold pyStrip at hc
  rw [List.getLast?_reverse] at hc
  rcases hd : ((raw.dropWhile pyWs).reverse.dropWhile pyWs) with - | ⟨b, bs⟩
  · rw [hd] at hc
    cases hc
  · rw [hd] at hc
    cases hc
    exact dropWhile_head_false hd

theorem lastOk_append {a b : List Char} (hb : b ≠ []) (h : LastOk b) :
    LastOk (a ++ b) := by
  intro c hc
  apply h
  rw [List.getLast?_append] at hc
  rcases hbl : b.getLast? with - | d
  · rcases b with - | ⟨x, xs⟩
    · exact absurd rfl hb
    · simp at hbl
  · rw [hbl] at hc
    simpa [hbl] using hc

/-- The stitcher loop invariant: every emitted line is nonempty and
contains an amount token, and the buffer never ends in whitespace. -/
def StitchInv (st : StitchState) : Prop :=
  (∀ x ∈ st.stitched, x ≠ [] ∧ hasAmountL x = true) ∧ LastOk st.buffer

theorem stitchStep_inv {st : StitchState} (l : List Char) (h : StitchInv st) :
    StitchInv (stitchStep st l) := by
  obtain ⟨hs, hb⟩ := h
  unfold stitchStep
  by_cases hl : pyStrip l = []
  · rw [if_pos hl]
    exact ⟨hs, hb⟩
  · rw [if_neg hl]
    have hlineOk : LastOk (pyStrip l) := lastOk_pyStrip l
    set line := pyStrip l with hline
    have hpush : ∀ (buf : List Char), LastOk buf → hasAmountL buf = true →
        ∀ x ∈ [pyStrip buf], x ≠ [] ∧ hasAmountL x = true := by
      intro buf hbuf hamt x hx
      rcases pyStrip_of_lastOk hbuf hamt with ⟨h1, h2⟩
      rcases List.mem_singleton.mp hx with rfl
      exact ⟨h2, h1⟩
    by_cases hsw : startsWithDate line = true
    · simp only [hsw, if_true]
      by_cases hflush : (st.buffer ≠ [] && hasAmountL st.buffer) = true
      · simp only [hflush, if_true]
        have hstitched : ∀ x ∈ st.stitched ++ [pyStrip st.buffer],
            x ≠ [] ∧ hasAmountL x = true := by
          intro x hx
          rcases List.mem_append.mp hx with hx | hx
          · exact hs x hx
          · exact hpush st.buffer hb (by simpa using (Bool.and_elim_right hflush)) x hx
        by_cases hfin : (hasAmountL line && hasAmountL line) = true
        · simp only [hfin, if_true]
          refine ⟨fun x hx => ?_, lastOk_nil⟩
          rcases List.mem_append.mp hx with hx | hx
          · exact hstitched x hx
          · exact hpush line hlineOk (by simpa using (Bool.and_elim_right hfin)) x hx
        · simp only [hfin, if_false]
          exact ⟨hstitched, hlineOk⟩
      · simp only [hflush, if_false]
        by_cases hfin : (hasAmountL line && hasAmountL line) = true
        · simp only [hfin, if_true]
          refine ⟨fun x hx => ?_, lastOk_nil⟩
          rcases List.mem_append.mp hx with hx | hx
          · exact hs x hx
          · exact hpush line hlineOk (by simpa using (Bool.and_elim_right hfin)) x hx
        · simp only [hfin, if_false]
          exact ⟨hs, hlineOk⟩
    · simp only [hsw, Bool.false_eq_true, if_false]
      have hbufOk : LastOk (st.buffer ++ ' ' :: line) := by
        apply lastOk_append (by simp)
        intro c hc
        rcases hline2 : line with - | ⟨x, xs⟩
        · exact absurd hline2 hl
        · rw [hline2, List.getLast?_cons_cons] at hc
          apply hlineOk
          rw [hline2]
          exact hc
      by_cases hfin : (hasAmountL (st.buffer ++ ' ' :: line) && hasAmountL line) = true
      · simp only [hfin, if_true]
        refine ⟨fun x hx => ?_, lastOk_nil⟩
        rcases List.mem_append.mp hx with hx | hx
        · exact hs x hx
        · exact hpush _ hbufOk (by simpa using (Bool.and_elim_left hfin)) x hx
      · simp only [hfin, if_false]
        exact ⟨hs, hbufOk⟩

theorem stitch_fold_inv (lines : List (List Char)) (st : StitchState)
    (h : StitchInv st) : StitchInv (lines.foldl stitchStep st) := by
  induction lines generalizing st with
  | nil => exact h
  | cons l rest ih => exact ih _ (stitchStep_inv l h)

/-- C10: every logical line emitted by stitch_wrapped_lines — whether
flushed at a new date-start line, on an amount-bearing line, or at end
of input — is non-empty and contains at least one currency-amount
token. -/
theorem C10_stitched_lines_have_amounts :
    ∀ (lines : List (List Char)) (x : List Char),
      x ∈ stitch_wrapped_lines lines →
        x ≠ [] ∧ hasAmountL x = true := by
  intro lines x hx
  unfold stitch_wrapped_lines at hx
  have hinv : StitchInv (lines.foldl stitchStep ⟨[], []⟩) :=
    stitch_fold_inv lines ⟨[], []⟩ ⟨by simp, lastOk_nil⟩
  obtain ⟨hs, hb⟩ := hinv
  by_cases hflush : ((lines.foldl stitchStep ⟨[], []⟩).buffer ≠ [] &&
      hasAmountL (lines.foldl stitchStep ⟨[], []⟩).buffer) = true
  · rw [if_pos hflush] at hx
    rcases List.mem_append.mp hx with hx | hx
    · exact hs x hx
    · rcases List.mem_singleton.mp hx with rfl
      rcases pyStrip_of_lastOk hb (by simpa using (Bool.and_elim_right hflush)) with ⟨h1, h2⟩
      exact ⟨h2, h1⟩
  · rw [if_neg hflush] at hx
    exact hs x hx

/-- C10 witness: the invariant at a concrete stitched output line. -/
theorem C10_stitched_lines_have_amounts_witness :
    "01/05 COFFEE $4.50".toList ≠ [] ∧
    hasAmountL "01/05 COFFEE $4.50".toList = true :=
  C10_stitched_lines_have_amounts ["01/05 COFFEE $4.50".toList] _ (by decide)

/-!  Support lemmas for the normalisation claim (C6). -/

theorem digitChar_facts {d : Nat} (h : d < 10) :
    (digitChar d).isDigit = true ∧ digitChar d ≠ '$' ∧ digitChar d ≠ ',' ∧
    digitChar d ≠ '.' ∧ pyWs (digitChar d) = false ∧ digitVal (digitChar d) = d := by
  interval_cases d <;>
    exact ⟨by decide, by decide, by decide, by decide, by decide, by decide⟩

theorem pyWs_facts {c : Char} (h : pyWs c = true) : c ≠ '$' ∧ c ≠ ',' := by
  simp only [pyWs, Bool.or_eq_true, decide_eq_true_eq] at h
  rcases h with ⟨⟨⟨⟨rfl | rfl⟩ | rfl⟩ | rfl⟩ | rfl⟩ | rfl <;>
    exact ⟨by decide, by decide⟩

theorem takeWhile_all {p : Char → Bool} {l : List Char}
    (h : ∀ c ∈ l, p c = true) : l.takeWhile p = l := by
  induction l with
  | nil => rfl
  | cons c cs ih =>
    rw [List.takeWhile_cons_of_pos (h c (by simp))]
    rw [ih (fun x hx => h x (by simp [hx]))]

theorem foldl_digitChar (l : List Nat) (h : ∀ d ∈ l, d < 10) :
    ∀ a : Nat, (renderDigits l).foldl (fun acc c => 10 * acc + digitVal c) a =
      l.foldl (fun acc d => 10 * acc + d) a := by
  induction l with
  | nil => intro a; rfl
  | cons d ds ih =>
    intro a
    simp only [renderDigits, List.map_cons, List.foldl_cons]
    rw [(digitChar_facts (h d (by simp))).2.2.2.2.2]
    exact ih (fun x hx => h x (by simp [hx])) _

theorem charsToNat_render (l : List Nat) (h : ∀ d ∈ l, d < 10) :
    charsToNat (renderDigits l) = digitsToNat l :=
  foldl_digitChar l h 0

theorem renderDigits_isDigit {l : List Nat} (h : ∀ d ∈ l, d < 10) :
    ∀ c ∈ renderDigits l, c.isDigit = true := by
  intro c hc
  rcases List.mem_map.mp hc with ⟨d, hd, rfl⟩
  exact (digitChar_facts (h d hd)).1

/-- The unsigned float parse of `digits ++ "." ++ digits`. -/
theorem pyFloatBody_digits (ds fr : List Char)
    (hds : ∀ c ∈ ds, c.isDigit = true) (hfr : ∀ c ∈ fr, c.isDigit = true)
    (hne : ds ≠ []) :
    pyFloatBody (ds ++ '.' :: fr) =
      some ((charsToNat ds : ℚ) + (charsToNat fr : ℚ) / ((10 : ℚ) ^ fr.length)) := by
  have h1 : (ds ++ '.' :: fr).takeWhile Char.isDigit = ds := by
    rw [List.takeWhile_append_of_pos hds, List.takeWhile_cons_of_neg (by simp),
      List.append_nil]
  have h3 : fr.takeWhile Char.isDigit = fr := takeWhile_all hfr
  unfold pyFloatBody
  rw [h1, List.drop_left]
  simp [pyFloatRest, h3, List.drop_length, hne]

/-- Stripping removes exactly an all-whitespace prefix and suffix
around a middle part whose first and last characters are not
whitespace. -/
theorem pyStrip_pad {ws1 ws2 mid : List Char}
    (h1 : ∀ c ∈ ws1, pyWs c = true) (h2 : ∀ c ∈ ws2, pyWs c = true)
    (hne : mid ≠ [])
    (hhead : ∀ c, mid.head? = some c → pyWs c = false)
    (hlast : ∀ c, mid.getLast? = some c → pyWs c = false) :
    pyStrip (ws1 ++ mid ++ ws2) = mid := by
  rcases hm : mid with - | ⟨c, rest⟩
  · exact absurd hm hne
  subst hm
  have hc : pyWs c = false := hhead c rfl
  unfold pyStrip
  rw [List.append_assoc, List.dropWhile_append_of_pos h1, List.cons_append,
    List.dropWhile_cons_of_neg (by simp [hc]), ← List.cons_append,
    List.reverse_append,
    List.dropWhile_append_of_pos (fun x hx => h2 x (List.mem_reverse.mp hx))]
  rcases hr : (c :: rest).reverse with - | ⟨b, bs⟩
  · simp at hr
  · have hb : pyWs b = false := by
      apply hlast
      rw [← List.head?_reverse, hr]
      rfl
    rw [List.dropWhile_cons_of_neg (by simp [hb]), ← hr, List.reverse_reverse]

/-- C6: for every currency token of the form `-?\$?N(,NNN)*.NN`
(optionally surrounded by whitespace), normalize_amount returns the
decimal equal to the token's literal digit value with the sign given by
the optional leading minus: the dollar sign, the thousands separators
and the surrounding whitespace are stripped. -/
theorem C6_normalize_amount_literal :
    ∀ t : CurrencyToken, t.wf → normalize_amount t.render = some t.value := by
  intro t hwf
  obtain ⟨hfirst, hfd, hgr, hhi, hlo, hws1, hws2⟩ := hwf
  have hflat : ∀ d ∈ t.first ++ t.groups.flatten, d < 10 := by
    intro d hd
    rcases List.mem_append.mp hd with hd | hd
    · exact hfd d hd
    · rcases List.mem_flatten.mp hd with ⟨g, hg, hdg⟩
      exact (hgr g hg).2 d hdg
  have hfr2 : ∀ d ∈ [t.fracHi, t.fracLo], d < 10 := by
    intro d hd
    simp only [List.mem_cons, List.not_mem_nil, or_false] at hd
    rcases hd with rfl | rfl
    · exact hhi
    · exact hlo
  -- the two replace() filters remove exactly the dollar and the commas
  have hfilter :
      ((t.render.filter (fun c => decide (c ≠ '$'))).filter (fun c => decide (c ≠ ','))) =
        t.ws1 ++ ((if t.neg then ['-'] else []) ++
          (renderDigits (t.first ++ t.groups.flatten) ++
            '.' :: renderDigits [t.fracHi, t.fracLo])) ++ t.ws2 := by
    have hkeep : ∀ (l : List Char) (p : Char → Bool), (∀ c ∈ l, p c = true) →
        l.filter p = l := fun l p h => List.filter_eq_self.mpr h
    have hwskeepD : t.ws1.filter (fun c => decide (c ≠ '$')) = t.ws1 :=
      hkeep _ _ (fun c hc => by simpa using (pyWs_facts (hws1 c hc)).1)
    have hwskeepC : t.ws1.filter (fun c => decide (c ≠ ',')) = t.ws1 :=
      hkeep _ _ (fun c hc => by simpa using (pyWs_facts (hws1 c hc)).2)
    have hws2keepD : t.ws2.filter (fun c => decide (c ≠ '$')) = t.ws2 :=
      hkeep _ _ (fun c hc => by simpa using (pyWs_facts (hws2 c hc)).1)
    have hws2keepC : t.ws2.filter (fun c => decide (c ≠ ',')) = t.ws2 :=
      hkeep _ _ (fun c hc => by simpa using (pyWs_facts (hws2 c hc)).2)
    have hdigD : ∀ (l : List Nat), (∀ d ∈ l, d < 10) →
        (renderDigits l).filter (fun c => decide (c ≠ '$')) = renderDigits l := by
      intro l hl
      refine hkeep _ _ (fun c hc => ?_)
      rcases List.mem_map.mp hc with ⟨d, hd, rfl⟩
      simpa using (digitChar_facts (hl d hd)).2.1
    have hdigC : ∀ (l : List Nat), (∀ d ∈ l, d < 10) →
        (renderDigits l).filter (fun c => decide (c ≠ ',')) = renderDigits l := by
      intro l hl
      refine hkeep _ _ (fun c hc => ?_)
      rcases List.mem_map.mp hc with ⟨d, hd, rfl⟩
      simpa using (digitChar_facts (hl d hd)).2.2.1
    have hsignD : (if t.neg then ['-'] else []).filter (fun c => decide (c ≠ '$')) =
        (if t.neg then ['-'] else []) := by
      cases t.neg <;> simp
    have hsignC : (if t.neg then ['-'] else []).filter (fun c => decide (c ≠ ',')) =
        (if t.neg then ['-'] else []) := by
      cases t.neg <;> simp
    have hdollarD : (if t.dollar then ['$'] else []).filter
        (fun c => decide (c ≠ '$')) = [] := by
      cases t.dollar <;> simp
    have hgrpD : ((t.groups.map (fun g => ',' :: renderDigits g)).flatten).filter
        (fun c => decide (c ≠ '$')) =
        (t.groups.map (fun g => ',' :: renderDigits g)).flatten := by
      refine hkeep _ _ (fun c hc => ?_)
      rcases List.mem_flatten.mp hc with ⟨piece, hpiece, hcp⟩
      rcases List.mem_map.mp hpiece with ⟨g, hg, rfl⟩
      rcases List.mem_cons.mp hcp with rfl | hcp
      · simp
      · rcases List.mem_map.mp hcp with ⟨d, hd, rfl⟩
        simpa using (digitChar_facts ((hgr g hg).2 d hd)).2.1
    have hgrpC : ((t.groups.map (fun g => ',' :: renderDigits g)).flatten).filter
        (fun c => decide (c ≠ ',')) = renderDigits t.groups.flatten := by
      rw [List.filter_flatten, List.map_map]
      have hmap : t.groups.map
          ((List.filter (fun c => decide (c ≠ ','))) ∘ (fun g => ',' :: renderDigits g)) =
          t.groups.map renderDigits := by
        refine List.map_congr_left (fun g hg => ?_)
        show List.filter (fun c => decide (c ≠ ',')) (',' :: renderDigits g) = _
        rw [List.filter_cons_of_neg (by simp)]
        exact hdigC g (hgr g hg).2
      rw [hmap]
      unfold renderDigits
      exact (List.map_flatten _ _).symm
    have htailD : List.filter (fun c => decide (c ≠ '$'))
        ('.' :: (renderDigits [t.fracHi, t.fracLo] ++ t.ws2)) =
        '.' :: (renderDigits [t.fracHi, t.fracLo] ++ t.ws2) := by
      rw [List.filter_cons_of_pos (by simp), List.filter_append,
        hdigD [t.fracHi, t.fracLo] hfr2, hws2keepD]
    have htailC : List.filter (fun c => decide (c ≠ ','))
        ('.' :: (renderDigits [t.fracHi, t.fracLo] ++ t.ws2)) =
        '.' :: (renderDigits [t.fracHi, t.fracLo] ++ t.ws2) := by
      rw [List.filter_cons_of_pos (by simp), List.filter_append,
        hdigC [t.fracHi, t.fracLo] hfr2, hws2keepC]
    simp only [CurrencyToken.render, List.append_assoc, List.cons_append]
    simp only [List.filter_append, htailD, hwskeepD, hsignD, hdollarD, hgrpD,
      hdigD t.first hfd]
    simp only [List.filter_append, htailC, hwskeepC, hsignC, List.filter_nil,
      hgrpC, hdigC t.first hfd]
    unfold renderDigits
    rw [List.map_append]
    simp [List.append_assoc]
  -- stripping removes the padding
  have hmid :
      pyStrip ((t.render.filter (fun c => decide (c ≠ '$'))).filter
        (fun c => decide (c ≠ ','))) =
        (if t.neg then ['-'] else []) ++
          (renderDigits (t.first ++ t.groups.flatten) ++
            '.' :: renderDigits [t.fracHi, t.fracLo]) := by
    rw [hfilter]
    obtain ⟨f0, fs, hf⟩ := List.exists_cons_of_ne_nil hfirst
    have hf0 : f0 < 10 := hfd f0 (by rw [hf]; simp)
    refine pyStrip_pad hws1 hws2 ?_ ?_ ?_
    · cases t.neg <;> simp [hf, renderDigits]
    · intro c hc
      cases hn : t.neg
      · simp only [hn, Bool.false_eq_true, if_false, List.nil_append, hf,
          renderDigits, List.map_cons, List.map_append, List.cons_append,
          List.head?_cons, Option.some.injEq] at hc
        rw [← hc]
        exact (digitChar_facts hf0).2.2.2.2.1
      · simp only [hn, if_true, List.cons_append, List.head?_cons,
          Option.some.injEq] at hc
        rw [← hc]
        rfl
    · intro c hc
      rw [List.getLast?_append, List.getLast?_append] at hc
      have hcl : ('.' :: renderDigits [t.fracHi, t.fracLo]).getLast? =
          some (digitChar t.fracLo) := rfl
      rw [hcl] at hc
      have hc2 : (some (digitChar t.fracLo) : Option Char) = some c := hc
      have hc3 : digitChar t.fracLo = c := by injection hc2
      rw [← hc3]
      exact (digitChar_facts hlo).2.2.2.2.1
  -- evaluate the float parse
  unfold normalize_amount
  rw [hmid]
  have hdsd : ∀ c ∈ renderDigits (t.first ++ t.groups.flatten), c.isDigit = true :=
    renderDigits_isDigit hflat
  have hfrd : ∀ c ∈ renderDigits [t.fracHi, t.fracLo], c.isDigit = true :=
    renderDigits_isDigit hfr2
  have hdsne : renderDigits (t.first ++ t.groups.flatten) ≠ [] := by
    rcases hf : t.first with - | ⟨f0, fs⟩
    · exact absurd hf hfirst
    · simp [renderDigits, hf]
  have hbody := pyFloatBody_digits _ _ hdsd hfrd hdsne
  have hlen : (renderDigits [t.fracHi, t.fracLo]).length = 2 := rfl
  have hint : (charsToNat (renderDigits (t.first ++ t.groups.flatten)) : ℚ) =
      (digitsToNat (t.first ++ t.groups.flatten) : ℚ) := by
    rw [charsToNat_render _ hflat]
  have hfrac : (charsToNat (renderDigits [t.fracHi, t.fracLo]) : ℚ) =
      ((10 * t.fracHi + t.fracLo : Nat) : ℚ) := by
    rw [charsToNat_render _ hfr2]
    simp [digitsToNat]
  obtain ⟨f0, fs, hf⟩ := List.exists_cons_of_ne_nil hfirst
  have hf0 : f0 < 10 := hfd f0 (by rw [hf]; simp)
  cases hn : t.neg
  · simp only [Bool.false_eq_true, if_false, List.nil_append]
    unfold pyFloat
    have hshape : renderDigits (t.first ++ t.groups.flatten) ++
        '.' :: renderDigits [t.fracHi, t.fracLo] =
        digitChar f0 :: (renderDigits (fs ++ t.groups.flatten) ++
          '.' :: renderDigits [t.fracHi, t.fracLo]) := by
      rw [hf]
      simp [renderDigits]
    rw [hshape]
    split
    · next heq =>
      exfalso
      have hne1 : digitChar f0 = '-' := (List.cons.inj heq).1
      have h2 := (digitChar_facts hf0).1
      rw [hne1] at h2
      simp at h2
    · next heq =>
      exfalso
      have hne1 : digitChar f0 = '+' := (List.cons.inj heq).1
      have h2 := (digitChar_facts hf0).1
      rw [hne1] at h2
      simp at h2
    · rw [← hshape, hbody]
      unfold CurrencyToken.value
      rw [hn]
      simp only [Bool.false_eq_true, if_false]
      rw [hint, hfrac, hlen]
      norm_num
  · simp only [if_true, List.cons_append, List.nil_append]
    rw [show pyFloat ('-' :: (renderDigits (t.first ++ t.groups.flatten) ++
        '.' :: renderDigits [t.fracHi, t.fracLo])) =
      Option.map (fun q => -q) (pyFloatBody (renderDigits (t.first ++ t.groups.flatten) ++
        '.' :: renderDigits [t.fracHi, t.fracLo])) from rfl]
    rw [hbody]
    unfold CurrencyToken.value
    rw [hn]
    simp only [if_true, Option.map_some]
    rw [hint, hfrac, hlen]
    norm_num

unseal Rat.add Rat.mul Rat.inv in
/-- C6 witness: the claim's two example tokens, "-$1,234.56" and
"$12.00". -/
theorem C6_normalize_amount_literal_witness :
    (CurrencyToken.mk true true [1] [[2, 3, 4]] 5 6 [] []).wf ∧
    normalize_amount (CurrencyToken.mk true true [1] [[2, 3, 4]] 5 6 [] []).render =
      some (CurrencyToken.mk true true [1] [[2, 3, 4]] 5 6 [] []).value ∧
    (CurrencyToken.mk false true [1, 2] [] 0 0 [] []).wf ∧
    normalize_amount (CurrencyToken.mk false true [1, 2] [] 0 0 [] []).render =
      some (CurrencyToken.mk false true [1, 2] [] 0 0 [] []).value ∧
    (CurrencyToken.mk true true [1] [[2, 3, 4]] 5 6 [] []).render =
      "-$1,234.56".toList ∧
    (CurrencyToken.mk false true [1, 2] [] 0 0 [] []).render = "$12.00".toList :=
  ⟨by unfold CurrencyToken.wf; decide,
   C6_normalize_amount_literal _ (by unfold CurrencyToken.wf; decide),
   by unfold CurrencyToken.wf; decide,
   C6_normalize_amount_literal _ (by unfold CurrencyToken.wf; decide),
   by decide, by decide⟩

end CardTracker
